import Mathlib

/-!
Verification of the session ingestion and hybrid indexing engine of
`claude-log-converter` against its specification.

The Python sources are shallowly embedded:

* `app/services/log_parser.py`   — event parser and heuristic extractor
* `app/services/session_db.py`   — SQLite-backed canonical store
* `app/services/session_indexer.py` — sync orchestrator / read-path controller

Modelling conventions:

* Python strings are Lean `String`s (manipulated through their `List Char`
  data so that everything evaluates inside the kernel); `str.lower()` is
  modelled as ASCII lowercasing (all concrete inputs in the theorems are
  ASCII, and SQLite's `LIKE` folds ASCII only).
* `datetime` values are modelled as `Nat` instants (the parser only ever
  compares them and subtracts them; ISO-8601 parsing itself is the external
  `datetime` library and is outside the model).
* A JSONL line is modelled as `Option Entry`: `none` when the line is blank
  or `json.loads` fails (such lines are skipped by `parse_jsonl_file`),
  `some e` when it decodes to a record of the shape `process_entries` reads.
* Python dict `.get` with an absent key is `Option.getD` over an `Option`
  field; Python truthiness of strings/lists (`""`/`[]`/`None` are falsy) is
  modelled explicitly where the source relies on it.
* SQLite is modelled as in-memory tables (lists in rowid order); the FTS5
  external-content table `events_fts` is a list of index entries.  The
  `events_ai` trigger appends an entry inside the same transaction as the
  insert that fired it.  The `events_ad` trigger, however, is modelled as a
  no-op on the index, because that is what its plain
  `DELETE FROM events_fts WHERE rowid = old.id` does on an external-content
  FTS5 table: the trigger fires after the `events` row is gone, FTS5 reads
  the terms to unindex from that missing content row, finds nothing, and
  removes no index entries.  The stale entries persist as ghosts, and a
  later query whose MATCH set reaches a ghost (the production
  `SELECT DISTINCT session_id FROM events_fts WHERE events_fts MATCH ?`
  reads a column of every matched row through the content table) fails with
  `sqlite3.DatabaseError: database disk image is malformed`.  Both
  behaviours were verified against SQLite on this exact schema.
-/

/-- ASCII lowercasing of one character (model of `str.lower` for the ASCII
inputs used throughout). -/
def asciiLower (c : Char) : Char :=
  if 'A' ≤ c ∧ c ≤ 'Z' then Char.ofNat (c.toNat + 32) else c

/-- ASCII lowercasing of a string. -/
def strLower (s : String) : String :=
  String.mk (s.data.map asciiLower)

/-- `needle` occurs as a contiguous substring of `hay` (model of Python's
`in` on strings and of SQLite `LIKE '%needle%'` after case folding). -/
def listIsSubstr (needle hay : List Char) : Bool :=
  match hay with
  | [] => needle = []
  | _ :: t => needle.isPrefixOf hay || listIsSubstr needle t

/-- Substring test on strings. -/
def strIsSubstr (needle hay : String) : Bool :=
  listIsSubstr needle.data hay.data

/-- Python's `x in s`, case-insensitively; also models SQLite
`col LIKE '%x%'` (ASCII-case-insensitive by default) for a pattern `x`
containing no `%`/`_` wildcards. -/
def likeContains (needle hay : String) : Bool :=
  strIsSubstr (strLower needle) (strLower hay)

/-- `s.split("-")` on character lists (Python `str.split` with an explicit
separator: `"".split("-") == [""]`, adjacent separators yield empty
pieces). -/
def splitDashAux : List Char → List Char → List (List Char)
  | [], acc => [acc.reverse]
  | c :: rest, acc =>
    if c = '-' then acc.reverse :: splitDashAux rest []
    else splitDashAux rest (c :: acc)

def splitDash (s : List Char) : List (List Char) :=
  splitDashAux s []

/-- `"/".join(parts)` on character lists. -/
def joinSlash (parts : List (List Char)) : List Char :=
  List.intercalate ['/'] parts

/-- `s.replace("-", "/")`. -/
def dashesToSlashes (s : List Char) : List Char :=
  s.map (fun c => if c = '-' then '/' else c)

/-- `SessionDatabase._decode_project_path` (session_db.py lines 580-593):
`if encoded_name.startswith("-"): return "/" + encoded_name[1:].replace("-", "/")`
`return encoded_name.replace("-", "/")` — pure string surgery, no
filesystem consultation. -/
def SessionDatabase.decode_project_path (encoded_name : String) : String :=
  match encoded_name.data with
  | '-' :: rest => String.mk ('/' :: dashesToSlashes rest)
  | l => String.mk (dashesToSlashes l)

/-- The greedy reconstruction loop of `SessionIndexer._decode_project_path`
(session_indexer.py lines 75-95).  `fsExists` models `Path(...).exists()`.
Returns `decoded_parts` together with the final `current_segment` (the
source appends a non-empty leftover after the loop). -/
def indexerDecodeLoop (fsExists : String → Bool)
    (decoded : List (List Char)) (current : List Char) :
    List (List Char) → List (List Char) × List Char
  | [] => (decoded, current)
  | seg :: rest =>
    let current' := if current ≠ [] then current ++ '-' :: seg else seg
    let test := String.mk ('/' :: joinSlash (decoded ++ [current']))
    if fsExists test || rest = [] then
      indexerDecodeLoop fsExists (decoded ++ [current']) [] rest
    else
      indexerDecodeLoop fsExists decoded current' rest

/-- `SessionIndexer._decode_project_path` (session_indexer.py lines 60-97):
filesystem-validated decode that tolerates dashes inside path segments. -/
def SessionIndexer.decode_project_path (fsExists : String → Bool)
    (encoded_name : String) : String :=
  match encoded_name.data with
  | '-' :: rest =>
    let segments := splitDash rest
    -- source: `if not segments: return "/"` (unreachable -- `split` never
    -- returns an empty list)
    if segments = [] then "/"
    else
      let pc := indexerDecodeLoop fsExists [] [] segments
      let parts := if pc.2 ≠ [] then pc.1 ++ [pc.2] else pc.1
      String.mk ('/' :: joinSlash parts)
  | l => String.mk (dashesToSlashes l)

/-- The methods defined on `class SessionDatabase` in
`app/services/session_db.py` (the only definition of that class in the
repository): `__init__` (line 26), `_get_connection` (37), `_init_schema`
(53), `index_session` (145), `get_sessions` (234), `get_session_by_id`
(333), `check_stale_sessions` (464), `rebuild_index` (506),
`get_indexed_session_count` (553), `clear_index` (567),
`_decode_project_path` (580). -/
def SessionDatabase.methodNames : List String :=
  ["__init__", "_get_connection", "_init_schema", "index_session",
   "get_sessions", "get_session_by_id", "check_stale_sessions",
   "rebuild_index", "get_indexed_session_count", "clear_index",
   "_decode_project_path"]

/-- Python attribute dispatch on a `SessionDatabase` instance: a method call
`self.db.<name>(...)` resolves iff `<name>` is among the class's methods;
otherwise Python raises `AttributeError`. -/
def SessionDatabase.hasMethod (name : String) : Bool :=
  SessionDatabase.methodNames.contains name

/-- The attribute name that `SessionIndexer.repair_fts5_if_needed`
(session_indexer.py line 398) invokes on its `SessionDatabase` backend:
`return self.db.repair_fts5_if_needed()`. -/
def SessionIndexer.repairDelegateTarget : String :=
  "repair_fts5_if_needed"

/-- Outcome of a call as observed by the caller: a returned boolean, or an
uncaught `AttributeError`. -/
inductive RepairOutcome
  | returns (b : Bool)
  | attributeError
  deriving DecidableEq, Repr

/-- `SessionIndexer.repair_fts5_if_needed()` (session_indexer.py lines
389-398): with no SQLite backend it returns `False`; with a backend it
performs attribute dispatch of `repairDelegateTarget` on the
`SessionDatabase` instance, which raises `AttributeError` when the class
defines no such method. -/
def SessionIndexer.repair_fts5_if_needed (dbEnabled : Bool) : RepairOutcome :=
  if ¬ dbEnabled then .returns false
  else if SessionDatabase.hasMethod SessionIndexer.repairDelegateTarget then
    -- dispatch would succeed and the backend method body would run; no such
    -- method exists in the source, so this branch is unreachable
    .returns true
  else .attributeError

/-! ## Event parser (`app/services/log_parser.py`) -/

/-- Python `\s` on ASCII: space, tab, newline, carriage return, vertical
tab, form feed. -/
def isPySpace (c : Char) : Bool :=
  c = ' ' || c = '\t' || c = '\n' || c = '\x0d' || c = '\x0b' || c = '\x0c'

/-- Python `str.strip()`. -/
def pyStrip (s : List Char) : List Char :=
  ((s.dropWhile isPySpace).reverse.dropWhile isPySpace).reverse

def stripStr (s : String) : String :=
  String.mk (pyStrip s.data)

/-- ASCII letter (the regex class `[a-zA-Z]`). -/
def asciiIsAlpha (c : Char) : Bool :=
  ('a' ≤ c && c ≤ 'z') || ('A' ≤ c && c ≤ 'Z')

/-- ASCII digit (the regex class `\d`, ASCII model). -/
def asciiIsDigit (c : Char) : Bool :=
  '0' ≤ c && c ≤ '9'

/-- The regex class `\w` (ASCII model): letters, digits, underscore. -/
def asciiIsWord (c : Char) : Bool :=
  asciiIsAlpha c || asciiIsDigit c || c = '_'

/-- Split a text into its lines at `'\n'` (for `re.MULTILINE` patterns that
are anchored by `^...$`). -/
def splitLinesAux : List Char → List Char → List (List Char)
  | [], acc => [acc.reverse]
  | c :: rest, acc =>
    if c = '\n' then acc.reverse :: splitLinesAux rest []
    else splitLinesAux rest (c :: acc)

def splitLines (s : List Char) : List (List Char) :=
  splitLinesAux s []

/-- One line matched against `^\s*(\d+[\.\)]\s*.+)$` (log_parser.py line
54); returns the captured group. -/
def matchNumberedLine (line : List Char) : Option (List Char) :=
  let r1 := line.dropWhile isPySpace
  let digits := r1.takeWhile asciiIsDigit
  if digits = [] then none
  else
    match r1.drop digits.length with
    | c :: tail =>
      if (c = '.' || c = ')') && tail ≠ [] then some (digits ++ c :: tail)
      else none
    | [] => none

/-- One line matched against `^\s*[-*]\s*\[[ x]\]\s*(.+)$` (log_parser.py
line 59); returns the captured group (`\s*` is greedy, backing off one
character when `.+` would otherwise be empty). -/
def matchCheckboxLine (line : List Char) : Option (List Char) :=
  match line.dropWhile isPySpace with
  | m :: r2 =>
    if m = '-' || m = '*' then
      match r2.dropWhile isPySpace with
      | '[' :: x :: ']' :: r4 =>
        if x = ' ' || x = 'x' then
          if r4 = [] then none
          else
            let k := (r4.takeWhile isPySpace).length
            some (r4.drop (min k (r4.length - 1)))
        else none
      | _ => none
    else none
  | [] => none

/-- `detect_phases_and_plans` (log_parser.py lines 50-63). -/
def detect_phases_and_plans (text : String) : List String :=
  let lines := splitLines text.data
  let numbered := lines.filterMap matchNumberedLine
  let fromNumbered :=
    if 2 ≤ numbered.length then (numbered.take 10).map String.mk else []
  let checks := lines.filterMap matchCheckboxLine
  fromNumbered ++ (checks.take 10).map String.mk

/-- Case-insensitive fixed-string match of `p` at the head of `t`; returns
the remainder of `t` on success. -/
def matchPrefixCI : List Char → List Char → Option (List Char)
  | [], t => some t
  | _ :: _, [] => none
  | a :: ps, b :: ts =>
    if asciiLower a = asciiLower b then matchPrefixCI ps ts else none

/-- Characters allowed by the regex class `[^.!?\n]`. -/
def decisionBodyChar (c : Char) : Bool :=
  ¬ (c = '.' || c = '!' || c = '?' || c = '\n')

/-- After the alternation prefix, match `\s+([^.!?\n]+[.!?]?)` where `\s+`
has consumed exactly `k` characters: the greedy body, then one optional
sentence-ending character.  Returns `(captured group, remainder)`. -/
def decisionBodyAt (r : List Char) (k : Nat) : Option (List Char × List Char) :=
  let rest := r.drop k
  let b := rest.takeWhile decisionBodyChar
  if b = [] then none
  else
    match rest.drop b.length with
    | c :: tl =>
      if c = '.' || c = '!' || c = '?' then some (b ++ [c], tl)
      else some (b, c :: tl)
    | [] => some (b, [])

/-- Backtracking search over the length consumed by `\s+`, greedily from
`k` down to `1`. -/
def decisionTailSearch (r : List Char) : Nat → Option (List Char × List Char)
  | 0 => none
  | k + 1 =>
    match decisionBodyAt r (k + 1) with
    | some res => some res
    | none => decisionTailSearch r k

/-- Try the alternation `(?:p₁|p₂|…)\s+([^.!?\n]+[.!?]?)` at one position,
alternatives in source order (regex alternation backtracks to the next
alternative when the tail fails). -/
def tryDecisionAt (prefixes : List (List Char)) (t : List Char) :
    Option (List Char × List Char) :=
  match prefixes with
  | [] => none
  | p :: ps =>
    match matchPrefixCI p t with
    | some r =>
      match decisionTailSearch r (r.takeWhile isPySpace).length with
      | some res => some res
      | none => tryDecisionAt ps t
    | none => tryDecisionAt ps t

/-- `re.findall` scan: left to right, non-overlapping, resuming after each
match.  The fuel argument is initialised to the text length; every step
consumes at least one character, so the fuel never runs out. -/
def decisionFindAllAux (prefixes : List (List Char)) :
    Nat → List Char → List (List Char)
  | 0, _ => []
  | n + 1, t =>
    match t with
    | [] => []
    | _ :: rest =>
      match tryDecisionAt prefixes t with
      | some (g, tl) => g :: decisionFindAllAux prefixes n tl
      | none => decisionFindAllAux prefixes n rest

/-- All matches of one decision pattern in `text`
(`re.findall(pattern, text, re.IGNORECASE)`). -/
def decisionFindAll (prefixes : List (List Char)) (text : String) : List String :=
  (decisionFindAllAux prefixes text.data.length text.data).map String.mk

/-- Alternation prefixes of the first decision pattern
`(?:I'll|Let's|We should|Going to|I will|We'll)\s+([^.!?\n]+[.!?]?)`
(log_parser.py line 71). -/
def decisionPrefixes1 : List (List Char) :=
  ["I'll".data, "Let's".data, "We should".data, "Going to".data,
   "I will".data, "We'll".data]

/-- Alternation prefixes of the second decision pattern
`(?:decided to|choosing to|opting for)\s+([^.!?\n]+[.!?]?)`
(log_parser.py line 72). -/
def decisionPrefixes2 : List (List Char) :=
  ["decided to".data, "choosing to".data, "opting for".data]

/-- `detect_decisions` (log_parser.py lines 66-81): for each pattern, take
the first **5** matches (`matches[:5]`), keep those longer than 20
characters, strip them; cap the combined list at 10. -/
def detect_decisions (text : String) : List String :=
  let ms1 := decisionFindAll decisionPrefixes1 text
  let ms2 := decisionFindAll decisionPrefixes2 text
  let d1 := ((ms1.take 5).filter (fun m => 20 < m.length)).map stripStr
  let d2 := ((ms2.take 5).filter (fun m => 20 < m.length)).map stripStr
  (d1 ++ d2).take 10

/-- Characters of the regex class `[/\w.-]` (log_parser.py line 38). -/
def bashPathChar (c : Char) : Bool :=
  c = '/' || asciiIsWord c || c = '.' || c = '-'

/-- Backtracking for `[/\w.-]+\.[a-zA-Z]{1,10}`: the greedy `+` consumed
`k` characters and backs off until the next character is a literal `.`
followed by at least one letter; `{1,10}` then takes up to 10 letters. -/
def bashSearchK (t : List Char) : Nat → Option (List Char × List Char)
  | 0 => none
  | k + 1 =>
    match t.drop (k + 1) with
    | '.' :: rest =>
      let letters := (rest.takeWhile asciiIsAlpha).take 10
      if letters ≠ [] then
        some (t.take (k + 1) ++ '.' :: letters, rest.drop letters.length)
      else bashSearchK t k
    | _ => bashSearchK t k

def bashMatchAt (t : List Char) : Option (List Char × List Char) :=
  let run := t.takeWhile bashPathChar
  if run = [] then none else bashSearchK t run.length

/-- `re.findall(r"[/\w.-]+\.[a-zA-Z]{1,10}", cmd)` scan (fuelled like
`decisionFindAllAux`). -/
def bashFindAllAux : Nat → List Char → List (List Char)
  | 0, _ => []
  | n + 1, t =>
    match t with
    | [] => []
    | _ :: rest =>
      match bashMatchAt t with
      | some (g, tl) => g :: bashFindAllAux n tl
      | none => bashFindAllAux n rest

def bashPathMatches (cmd : String) : List String :=
  (bashFindAllAux cmd.data.length cmd.data).map String.mk

/-- The keys of a `tool_use` block's `input` dict that the engine reads
(`file_path` for Read/Write/Edit, `command` for Bash, `pattern` for
Glob/Grep); `hasOtherKeys` records whether the dict carries further keys
(which only matters for Python truthiness of the dict). -/
structure ToolInput where
  file_path : Option String := none
  command : Option String := none
  pattern : Option String := none
  hasOtherKeys : Bool := false
  deriving DecidableEq, Repr

/-- Python truthiness of the `input` dict (`{}` is falsy). -/
def ToolInput.isTruthy (ti : ToolInput) : Bool :=
  ti.file_path.isSome || ti.command.isSome || ti.pattern.isSome || ti.hasOtherKeys

/-- `extract_files_from_tool_use` (log_parser.py lines 29-47).  Note that
`"file_path" in input_data` / `"pattern" in input_data` test key presence,
so an empty-string value still counts. -/
def extract_files_from_tool_use (name : String) (input_data : ToolInput) :
    List String :=
  if name = "Read" || name = "Write" || name = "Edit" then
    match input_data.file_path with
    | some fp => [fp]
    | none => []
  else if name = "Bash" then
    bashPathMatches (input_data.command.getD "")
  else if name = "Glob" then
    match input_data.pattern with
    | some p => ["[pattern: " ++ p ++ "]"]
    | none => []
  else if name = "Grep" then
    match input_data.pattern with
    | some p => ["[search: " ++ p ++ "]"]
    | none => []
  else []

/-- A `tool_result` block's `content` value: either a string, or some other
JSON value carried as its `str(...)` rendering (log_parser.py line 172). -/
inductive ItemContent
  | str (s : String)
  | other (rendered : String)
  deriving DecidableEq, Repr

/-- One content block of a message (`item` in log_parser.py); absent keys
are `none`, read through the source's `item.get(key, default)`. -/
structure ContentItem where
  type : Option String := none
  thinking : Option String := none
  text : Option String := none
  name : Option String := none
  input : Option ToolInput := none
  id : Option String := none
  tool_use_id : Option String := none
  content : Option ItemContent := none
  deriving DecidableEq, Repr

/-- A message's `content` payload: a plain string, a list of blocks, or a
value of some other (truthy) type, which both `isinstance` checks skip. -/
inductive PyContent
  | str (s : String)
  | items (l : List ContentItem)
  | other
  deriving DecidableEq, Repr

/-- Python truthiness of `content` (`""` and `[]` are falsy;
`if not content: continue`, log_parser.py line 144). -/
def PyContent.isTruthy : PyContent → Bool
  | .str s => s ≠ ""
  | .items l => l ≠ []
  | .other => true

structure Message where
  role : Option String := none
  content : Option PyContent := none
  deriving DecidableEq, Repr

/-- One parsed JSONL record as read by `process_entries`.  `timestamp`
holds the result of `parse_timestamp(entry.get("timestamp", ""))` — `none`
when the field is absent or unparsable — as a `Nat` instant. -/
structure Entry where
  type : Option String := none
  timestamp : Option Nat := none
  sessionId : Option String := none
  cwd : Option String := none
  gitBranch : Option String := none
  message : Option Message := none
  deriving DecidableEq, Repr

/-- `TimelineEvent` (app/models/session.py lines 46-56). -/
structure TimelineEvent where
  id : String
  type : String
  timestamp : Option Nat := none
  content : Option String := none
  tool_name : Option String := none
  tool_input : Option ToolInput := none
  tool_id : Option String := none
  files_affected : List String := []
  deriving DecidableEq, Repr

/-- The accumulator dict of `process_entries` (log_parser.py lines
104-118) plus the local `event_counter`.  The Python `set` fields are
modelled as first-insertion-ordered duplicate-free lists: every observation
the engine makes of them (membership, `len`, `sorted(...)`) is
order-insensitive. -/
structure ParseResult where
  session_id : Option String := none
  cwd : Option String := none
  git_branch : Option String := none
  start_time : Option Nat := none
  end_time : Option Nat := none
  files_modified : List String := []
  files_read : List String := []
  tools_used : List String := []
  phases : List String := []
  decisions : List String := []
  events : List TimelineEvent := []
  counter : Nat := 0
  deriving DecidableEq, Repr

/-- Add to a modelled Python `set`. -/
def setAdd (s : List String) (x : String) : List String :=
  if s.contains x then s else s ++ [x]

/-- `set.update(iterable)`. -/
def setUnion (s : List String) (xs : List String) : List String :=
  xs.foldl setAdd s

/-- `list(dict.fromkeys(l))`: deduplicate keeping first occurrences. -/
def dedupFirst (l : List String) : List String :=
  l.foldl setAdd []

/-- Python truthiness of an optional string (`None` and `""` are falsy). -/
def truthyOptStr : Option String → Bool
  | none => false
  | some s => s ≠ ""

/-- The first-wins metadata updates and timestamp-window updates performed
for every entry (log_parser.py lines 124-135), before the
`queue-operation` skip. -/
def updateEntryMeta (st : ParseResult) (e : Entry) : ParseResult :=
  { st with
    session_id := if ¬ truthyOptStr st.session_id then e.sessionId else st.session_id,
    cwd := if ¬ truthyOptStr st.cwd then e.cwd else st.cwd,
    git_branch := if ¬ truthyOptStr st.git_branch then e.gitBranch else st.git_branch,
    start_time :=
      match e.timestamp with
      | none => st.start_time
      | some ts =>
        match st.start_time with
        | none => some ts
        | some s => if ts < s then some ts else some s,
    end_time :=
      match e.timestamp with
      | none => st.end_time
      | some ts =>
        match st.end_time with
        | none => some ts
        | some s => if s < ts then some ts else some s }

/-- One item of a user-role list payload (log_parser.py lines 163-177):
only `tool_result` blocks produce events. -/
def processUserItem (ts : Option Nat) (st : ParseResult) (item : ContentItem) :
    ParseResult :=
  if item.type = some "tool_result" then
    let counter := st.counter + 1
    let tool_id := item.tool_use_id.getD ""
    let tcontent : String :=
      match item.content.getD (.str "") with
      | .str s => s
      | .other rendered => rendered
    { st with
      counter := counter,
      events := st.events ++ [{
        id := "evt-" ++ toString counter, type := "tool_result",
        timestamp := ts, content := some tcontent, tool_id := some tool_id }] }
  else st

/-- One item of an assistant-role list payload (log_parser.py lines
181-240). -/
def processAssistantItem (include_thinking : Bool) (ts : Option Nat)
    (st : ParseResult) (item : ContentItem) : ParseResult :=
  if item.type = some "thinking" then
    if include_thinking then
      let counter := st.counter + 1
      { st with
      counter := counter,
        events := st.events ++ [{
          id := "evt-" ++ toString counter, type := "thinking",
          timestamp := ts, content := some (item.thinking.getD "") }] }
    else st
  else if item.type = some "text" then
    let counter := st.counter + 1
    let text := item.text.getD ""
    { st with
      counter := counter,
      events := st.events ++ [{
        id := "evt-" ++ toString counter, type := "assistant",
        timestamp := ts, content := some text }],
      phases := st.phases ++ detect_phases_and_plans text,
      decisions := st.decisions ++ detect_decisions text }
  else if item.type = some "tool_use" then
    let counter := st.counter + 1
    let tool_name := item.name.getD ""
    let tool_input := item.input.getD {}
    let tool_id := item.id.getD ""
    let files := extract_files_from_tool_use tool_name tool_input
    { st with
      counter := counter,
      tools_used := setAdd st.tools_used tool_name,
      files_modified :=
        if tool_name = "Write" || tool_name = "Edit" then
          setUnion st.files_modified files
        else st.files_modified,
      files_read :=
        if tool_name = "Read" then setUnion st.files_read files
        else st.files_read,
      events := st.events ++ [{
        id := "evt-" ++ toString counter, type := "tool_use",
        timestamp := ts, content := none, tool_name := some tool_name,
        tool_input := some tool_input, tool_id := some tool_id,
        files_affected := files }] }
  else st

/-- One iteration of the entry loop of `process_entries` (log_parser.py
lines 120-240). -/
def processEntry (include_thinking : Bool) (st : ParseResult) (e : Entry) :
    ParseResult :=
  let ts := e.timestamp
  let st := updateEntryMeta st e
  if e.type = some "queue-operation" then st
  else
    let msg := e.message.getD {}
    let role := msg.role.getD ""
    match msg.content with
    | none => st
    | some c =>
      if ¬ c.isTruthy then st
      else if role = "user" then
        match c with
        | .str s =>
          let counter := st.counter + 1
          { st with
      counter := counter,
            events := st.events ++ [{
              id := "evt-" ++ toString counter, type := "user",
              timestamp := ts, content := some s }],
            phases := st.phases ++ detect_phases_and_plans s }
        | .items l => l.foldl (processUserItem ts) st
        | .other => st
      else if role = "assistant" then
        match c with
        | .items l => l.foldl (processAssistantItem include_thinking ts) st
        | _ => st
      else st

/-- `process_entries` (log_parser.py lines 100-245). -/
def process_entries (entries : List Entry) (include_thinking : Bool := false) :
    ParseResult :=
  let st := entries.foldl (processEntry include_thinking) {}
  { st with
    phases := (dedupFirst st.phases).take 15,
    decisions := (dedupFirst st.decisions).take 15 }

/-- Lexicographic order on code points (Python string `<=`). -/
def charListLe : List Char → List Char → Bool
  | [], _ => true
  | _ :: _, [] => false
  | a :: as, b :: bs =>
    if a.toNat < b.toNat then true
    else if b.toNat < a.toNat then false
    else charListLe as bs

def strLe (a b : String) : Bool :=
  charListLe a.data b.data

/-- Insert into a sorted list (stable). -/
def insertSorted (x : String) : List String → List String
  | [] => [x]
  | y :: ys => if strLe y x then y :: insertSorted x ys else x :: y :: ys

/-- Python `sorted` on strings (equal strings are equal values, so any
correct sort gives the same list). -/
def sortStrings (l : List String) : List String :=
  l.foldl (fun acc x => insertSorted x acc) []

/-- `pathlib.Path(p).stem`: last path component, minus its final suffix;
a suffix exists only when the last dot of the component is neither its
first nor its last character. -/
def pathStem (p : String) : String :=
  let name := (p.data.reverse.takeWhile (fun c => c ≠ '/')).reverse
  match name.reverse.findIdx? (fun c => c = '.') with
  | some j =>
    let i := name.length - 1 - j
    if 0 < i ∧ i < name.length - 1 then String.mk (name.take i)
    else String.mk name
  | none => String.mk name

/-- `SessionSummary` (app/models/session.py lines 8-23). -/
structure SessionSummary where
  session_id : String
  project_path : String
  project_name : String
  file_path : String
  start_time : Option Nat := none
  end_time : Option Nat := none
  duration_seconds : Option Nat := none
  git_branch : Option String := none
  cwd : Option String := none
  message_count : Nat := 0
  tool_count : Nat := 0
  files_modified_count : Nat := 0
  file_size_bytes : Nat := 0
  deriving DecidableEq, Repr

/-- `SessionDetail` (app/models/session.py lines 26-43). -/
structure SessionDetail where
  session_id : String
  project_path : String
  project_name : String
  file_path : String
  cwd : Option String := none
  git_branch : Option String := none
  start_time : Option Nat := none
  end_time : Option Nat := none
  duration_seconds : Option Nat := none
  files_modified : List String := []
  files_read : List String := []
  tools_used : List String := []
  phases : List String := []
  decisions : List String := []
  events : List TimelineEvent := []
  deriving DecidableEq, Repr

/-- `parse_jsonl_file` (log_parser.py lines 84-97): blank and
JSON-undecodable lines (`none`) are skipped, decodable lines are kept in
order. -/
def parse_jsonl_file (lines : List (Option Entry)) : List Entry :=
  lines.filterMap id

/-- `duration = int((end - start).total_seconds())` when both ends exist
(the maximum of a timestamp set never precedes its minimum). -/
def durationOf (start_time end_time : Option Nat) : Option Nat :=
  match start_time, end_time with
  | some s, some e => some (e - s)
  | _, _ => none

/-- `data["session_id"] or filepath.stem` (Python `or`: `None` and `""`
fall through to the stem). -/
def sidOrStem (sid : Option String) (filepath : String) : String :=
  if truthyOptStr sid then sid.getD "" else pathStem filepath

/-- `get_session_summary` (log_parser.py lines 248-282).  `filepath` is the
source file path, `fileSize` its `stat().st_size`, `lines` its raw lines. -/
def get_session_summary (lines : List (Option Entry)) (filepath : String)
    (fileSize : Nat) (project_path project_name : String) : SessionSummary :=
  let entries := parse_jsonl_file lines
  if entries = [] then
    { session_id := "unknown", project_path, project_name,
      file_path := filepath, file_size_bytes := fileSize }
  else
    let data := process_entries entries false
    { session_id := sidOrStem data.session_id filepath,
      project_path, project_name, file_path := filepath,
      start_time := data.start_time, end_time := data.end_time,
      duration_seconds := durationOf data.start_time data.end_time,
      git_branch := data.git_branch, cwd := data.cwd,
      message_count :=
        (data.events.filter (fun e => e.type = "user" || e.type = "assistant")).length,
      tool_count := (data.events.filter (fun e => e.type = "tool_use")).length,
      files_modified_count := data.files_modified.length,
      file_size_bytes := fileSize }

/-- `f.startswith("[")`: synthetic placeholder produced for Glob/Grep
inputs. -/
def isPlaceholder (f : String) : Bool :=
  match f.data with
  | '[' :: _ => true
  | _ => false

/-- `get_session_detail` (log_parser.py lines 285-314). -/
def get_session_detail (lines : List (Option Entry)) (filepath : String)
    (project_path project_name : String) (include_thinking : Bool := false) :
    SessionDetail :=
  let entries := parse_jsonl_file lines
  let data := process_entries entries include_thinking
  { session_id := sidOrStem data.session_id filepath,
    project_path, project_name, file_path := filepath,
    cwd := data.cwd, git_branch := data.git_branch,
    start_time := data.start_time, end_time := data.end_time,
    duration_seconds := durationOf data.start_time data.end_time,
    files_modified := sortStrings (data.files_modified.filter (fun f => ¬ isPlaceholder f)),
    files_read := sortStrings (data.files_read.filter (fun f => ¬ isPlaceholder f)),
    tools_used := sortStrings data.tools_used,
    phases := data.phases,
    decisions := data.decisions,
    events := data.events }

/-! ## Canonical store (`app/services/session_db.py`) -/

/-- One row of the `events` table (schema lines 81-93). `tool_input` is
stored as JSON text — `NULL` when the input dict was falsy (line 193) — and
`files_affected` as a JSON array — `NULL` when the list was empty (line
194); the JSON round-trip is assumed faithful and elided. -/
structure DbEventRow where
  rowid : Nat
  session_id : String
  event_id : String
  type : String
  timestamp : Option Nat := none
  content : Option String := none
  tool_name : Option String := none
  tool_input : Option ToolInput := none
  tool_id : Option String := none
  files_affected : Option (List String) := none
  deriving DecidableEq, Repr

/-- One row of the FTS5 external-content table `events_fts` (schema lines
99-105). -/
structure FtsRow where
  rowid : Nat
  session_id : String
  event_id : String
  content : Option String := none
  deriving DecidableEq, Repr

/-- One row of the `sessions` table (schema lines 58-74); `indexed_at` is
not modelled (nothing reads it). -/
structure SessionRow where
  session_id : String
  project_path : String
  project_name : String
  file_path : String
  start_time : Option Nat := none
  end_time : Option Nat := none
  duration_seconds : Option Nat := none
  git_branch : Option String := none
  cwd : Option String := none
  message_count : Nat := 0
  tool_count : Nat := 0
  files_modified_count : Nat := 0
  file_size_bytes : Nat := 0
  file_mtime : Nat := 0
  deriving DecidableEq, Repr

/-- One row of the `session_metadata` table (schema lines 124-132). -/
structure MetadataRow where
  session_id : String
  files_modified : List String := []
  files_read : List String := []
  tools_used : List String := []
  phases : List String := []
  decisions : List String := []
  deriving DecidableEq, Repr

/-- The database state.  Table lists are kept in rowid/insertion order;
`nextRowid` models the `events` AUTOINCREMENT counter. -/
structure DbState where
  sessions : List SessionRow := []
  events : List DbEventRow := []
  events_fts : List FtsRow := []
  session_metadata : List MetadataRow := []
  nextRowid : Nat := 1
  deriving DecidableEq, Repr

/-- The FTS mirror row the `events_ai` trigger inserts for an event row
(schema lines 108-111). -/
def mirrorRow (e : DbEventRow) : FtsRow :=
  { rowid := e.rowid, session_id := e.session_id, event_id := e.event_id,
    content := e.content }

/-- `INSERT OR REPLACE INTO sessions ...` (session_db.py lines 164-186):
rows conflicting on the `session_id` primary key or the `file_path UNIQUE`
constraint are deleted first; with `PRAGMA foreign_keys = ON`,
`ON DELETE CASCADE` then removes their `events` rows and `session_metadata`
rows.  Each cascaded `events` delete fires the `events_ad` trigger, but its
`DELETE FROM events_fts WHERE rowid = old.id` removes no index entries: on
the external-content table FTS5 must read the terms to unindex from the
`events` row with that rowid, which the cascade has already deleted.  The
victims' `events_fts` entries therefore persist (verified against SQLite on
this schema: the deleted content stays in the MATCH index). -/
def dbUpsertSession (r : SessionRow) (st : DbState) : DbState :=
  let conflict := fun (s : SessionRow) => s.session_id = r.session_id || s.file_path = r.file_path
  let victimSids := (st.sessions.filter conflict).map (fun s => s.session_id)
  { st with
    sessions := st.sessions.filter (fun s => !conflict s) ++ [r],
    events := st.events.filter (fun e => !victimSids.contains e.session_id),
    session_metadata := st.session_metadata.filter (fun m => !victimSids.contains m.session_id) }

/-- `DELETE FROM events WHERE session_id = ?` (session_db.py line 189).
The `events_ad` trigger then issues `DELETE FROM events_fts WHERE rowid =
old.id` for each removed row, but on the external-content FTS5 table this
unindexes nothing: the trigger fires AFTER DELETE, FTS5 looks the terms up
in the already-deleted `events` row, reads no content, and leaves the old
index entries in place as ghosts (verified against SQLite on this
schema). -/
def dbDeleteEvents (sid : String) (st : DbState) : DbState :=
  { st with
    events := st.events.filter (fun e => !decide (e.session_id = sid)) }

/-- `INSERT INTO events ...` for one timeline event (session_db.py lines
192-211); the `events_ai` trigger inserts the FTS mirror row in the same
statement. -/
def dbInsertEvent (sid : String) (ev : TimelineEvent) (st : DbState) : DbState :=
  let row : DbEventRow := {
    rowid := st.nextRowid, session_id := sid, event_id := ev.id,
    type := ev.type, timestamp := ev.timestamp, content := ev.content,
    tool_name := ev.tool_name,
    tool_input :=
      match ev.tool_input with
      | some ti => if ti.isTruthy then some ti else none
      | none => none,
    tool_id := ev.tool_id,
    files_affected :=
      if ev.files_affected ≠ [] then some ev.files_affected else none }
  { st with
    events := st.events ++ [row],
    events_fts := st.events_fts ++ [mirrorRow row],
    nextRowid := st.nextRowid + 1 }

/-- `INSERT OR REPLACE INTO session_metadata ...` (session_db.py lines
214-226). -/
def dbUpsertMetadata (m : MetadataRow) (st : DbState) : DbState :=
  { st with session_metadata :=
      st.session_metadata.filter (fun x => !decide (x.session_id = m.session_id)) ++ [m] }

/-- Run the statements of one transaction in order; `oracle i = true` makes
the `i`-th statement raise.  `none` models the exception escaping the
`with` block. -/
def runStmts (oracle : Nat → Bool) : List (DbState → DbState) → Nat → DbState → Option DbState
  | [], _, st => some st
  | op :: ops, i, st =>
    if oracle i then none else runStmts oracle ops (i + 1) (op st)

/-- `_get_connection` (session_db.py lines 37-51): all statements of the
`with` block run in one transaction; on success it commits, on any
exception it rolls back — the visible state is the original one — and
re-raises.  The `Bool` is `true` on commit. -/
def runTransaction (oracle : Nat → Bool) (ops : List (DbState → DbState))
    (st : DbState) : DbState × Bool :=
  match runStmts oracle ops 0 st with
  | some st' => (st', true)
  | none => (st, false)

/-- Committing every statement without failure. -/
def applyStmts (ops : List (DbState → DbState)) (st : DbState) : DbState :=
  ops.foldl (fun s op => op s) st

/-- A source file as the engine observes it: `stat().st_mtime` (as `int`),
`stat().st_size`, and its raw lines. -/
structure FsFile where
  mtime : Nat
  size : Nat
  lines : List (Option Entry)

/-- The filesystem: path → file, `none` when the path does not exist. -/
def FileSystem := String → Option FsFile

/-- The session row written by `index_session` (session_db.py lines
164-186): summary fields plus `str(file_path)` and the freshly stat-ed
`file_mtime`. -/
def indexSessionRow (summary : SessionSummary) (file_path : String)
    (file_mtime : Nat) : SessionRow :=
  { session_id := summary.session_id, project_path := summary.project_path,
    project_name := summary.project_name, file_path := file_path,
    start_time := summary.start_time, end_time := summary.end_time,
    duration_seconds := summary.duration_seconds,
    git_branch := summary.git_branch, cwd := summary.cwd,
    message_count := summary.message_count, tool_count := summary.tool_count,
    files_modified_count := summary.files_modified_count,
    file_size_bytes := summary.file_size_bytes, file_mtime := file_mtime }

/-- The metadata row written by `index_session` (session_db.py lines
214-226). -/
def indexMetadataRow (summary : SessionSummary) (detail : SessionDetail) :
    MetadataRow :=
  { session_id := summary.session_id,
    files_modified := detail.files_modified, files_read := detail.files_read,
    tools_used := detail.tools_used, phases := detail.phases,
    decisions := detail.decisions }

/-- The statement list of the `index_session` transaction (session_db.py
lines 162-226): upsert the session row, delete the session's old events
(FTS mirror maintained by triggers), insert each parsed event, upsert the
metadata row. -/
def indexSessionStmts (summary : SessionSummary) (detail : SessionDetail)
    (file_path : String) (file_mtime : Nat) : List (DbState → DbState) :=
  [dbUpsertSession (indexSessionRow summary file_path file_mtime),
   dbDeleteEvents summary.session_id] ++
  detail.events.map (dbInsertEvent summary.session_id) ++
  [dbUpsertMetadata (indexMetadataRow summary detail)]

/-- `SessionDatabase.index_session` (session_db.py lines 145-232).  The
file is parsed twice (`get_session_summary`, then `get_session_detail`
with `include_thinking=False`) and stat-ed before the transaction opens; a
missing file makes the parse raise before any write.  `oracle i = true`
makes the `i`-th SQL statement raise.  The returned `Bool` is `false` when
the call raised (after the transaction rolled back: the returned state is
then the input state, which is what any reader observes). -/
def index_session (fs : FileSystem) (oracle : Nat → Bool)
    (file_path project_path project_name : String) (st : DbState) :
    DbState × Bool :=
  match fs file_path with
  | none => (st, false)
  | some file =>
    let summary := get_session_summary file.lines file_path file.size
      project_path project_name
    let detail := get_session_detail file.lines file_path
      project_path project_name false
    runTransaction oracle
      (indexSessionStmts summary detail file_path file.mtime) st

/-- FTS5 `unicode61` tokenisation (ASCII model): maximal runs of
alphanumeric characters, case-folded.  (`_` and punctuation are
separators.) -/
def ftsTokensAux : List Char → List Char → List (List Char)
  | [], acc => if acc = [] then [] else [acc.reverse]
  | c :: rest, acc =>
    if asciiIsAlpha c || asciiIsDigit c then
      ftsTokensAux rest (asciiLower c :: acc)
    else if acc = [] then ftsTokensAux rest []
    else acc.reverse :: ftsTokensAux rest []

def ftsTokens (s : String) : List (List Char) :=
  ftsTokensAux s.data []

/-- `events_fts MATCH ?` for a plain single-token query term: the term,
case-folded, must occur as a complete token of the row's indexed `content`
column.  (FTS5 matches whole tokens, never mid-token substrings; query
terms with spaces or FTS5 query syntax are outside the model and are
excluded by hypothesis where this is used.) -/
def ftsRowMatch (term : String) (row : FtsRow) : Bool :=
  match row.content with
  | none => false
  | some c => (ftsTokens c).contains (strLower term).data

/-- The `search` disjunction of `get_sessions` (session_db.py lines
274-289): the session id appears in
`SELECT DISTINCT session_id FROM events_fts WHERE events_fts MATCH ?`, or
one of `project_name`/`git_branch`/`cwd` is `LIKE '%search%'` (a `NULL`
column never matches).  `events_fts` is an external-content table, so the
`session_id` column of a matched index entry is read from the `events` row
with the same rowid; this read only succeeds when every matched rowid is
live — when the match set reaches a ghost entry the real query fails
instead (see `ftsGhostMatch`), so this predicate describes the non-failing
case. -/
def rowMatchesSearch (st : DbState) (search : String) (s : SessionRow) : Bool :=
  st.events_fts.any (fun f => ftsRowMatch search f &&
    st.events.any (fun e => e.rowid = f.rowid && e.session_id = s.session_id))
  || likeContains search s.project_name
  || (match s.git_branch with
      | some b => likeContains search b
      | none => false)
  || (match s.cwd with
      | some c => likeContains search c
      | none => false)

/-- The search term's FTS5 match set contains a ghost entry: an
`events_fts` entry left behind by the defective `events_ad` trigger whose
content row no longer exists.  Evaluating the search subquery then reads
`session_id` of the ghost through the missing `events` row and the whole
statement fails with `sqlite3.DatabaseError: database disk image is
malformed` (verified against SQLite on this schema). -/
def ftsGhostMatch (st : DbState) (search : String) : Bool :=
  st.events_fts.any (fun f => ftsRowMatch search f &&
    !st.events.any (fun e => e.rowid = f.rowid))

/-- The filter clauses that precede the search clause in the WHERE of
`get_sessions` (project, date range; session_db.py lines 258-272).  A
falsy Python argument (`None`, `""`) adds no clause; a `NULL` `start_time`
fails both date comparisons. -/
def rowMatchesPrefilters (project : Option String)
    (date_from date_to : Option Nat) (s : SessionRow) : Bool :=
  (if truthyOptStr project then s.project_name = project.getD "" else true)
  && (match date_from with
      | some d =>
        match s.start_time with
        | some t => d ≤ t
        | none => false
      | none => true)
  && (match date_to with
      | some d =>
        match s.start_time with
        | some t => t ≤ d
        | none => false
      | none => true)

/-- The full conjunctive WHERE clause of `get_sessions` (session_db.py
lines 258-291). -/
def rowMatchesFilters (st : DbState) (project : Option String)
    (date_from date_to : Option Nat) (search : Option String)
    (s : SessionRow) : Bool :=
  rowMatchesPrefilters project date_from date_to s
  && (if truthyOptStr search then rowMatchesSearch st (search.getD "") s
      else true)

/-- `ORDER BY start_time DESC`: `a` strictly precedes `b` (SQLite treats
`NULL` as smaller than every value, so `NULL`s come last in `DESC`
order). -/
def startTimeLt (a b : Option Nat) : Bool :=
  match a, b with
  | none, none => false
  | none, some _ => true
  | some _, none => false
  | some x, some y => x < y

/-- Stable descending insertion by `start_time` (ties keep table order, as
a full-scan `ORDER BY` does in practice). -/
def insertDescByStart (x : SessionRow) : List SessionRow → List SessionRow
  | [] => [x]
  | y :: ys =>
    if startTimeLt y.start_time x.start_time then x :: y :: ys
    else y :: insertDescByStart x ys

def sortSessionsDesc (l : List SessionRow) : List SessionRow :=
  l.foldl (fun acc x => insertDescByStart x acc) []

/-- A `sessions` row read back into a `SessionSummary` (session_db.py
lines 310-325). -/
def sessionRowToSummary (r : SessionRow) : SessionSummary :=
  { session_id := r.session_id, project_path := r.project_path,
    project_name := r.project_name, file_path := r.file_path,
    start_time := r.start_time, end_time := r.end_time,
    duration_seconds := r.duration_seconds, git_branch := r.git_branch,
    cwd := r.cwd, message_count := r.message_count,
    tool_count := r.tool_count,
    files_modified_count := r.files_modified_count,
    file_size_bytes := r.file_size_bytes }

/-- `SessionDatabase.get_sessions` (session_db.py lines 234-331): filtered
count, then the filtered rows ordered by start time descending and
paginated with `LIMIT ? OFFSET ?`.  SQLite evaluates the search clause the
first time a `sessions` row passes the clauses before it; when the search
term's match set contains a ghost index entry that evaluation raises
`sqlite3.DatabaseError: database disk image is malformed`, which escapes
`get_sessions` (modelled as `Except.error`; `SessionIndexer.get_sessions`
catches it and falls back to a file scan).  The error condition — a
truthy search, a ghost in the term's match set, and at least one row
reaching the search clause — was verified case by case against SQLite on
this schema. -/
def SessionDatabase.get_sessions (st : DbState) (project : Option String)
    (date_from date_to : Option Nat) (search : Option String)
    (offset limit : Nat) : Except String (List SessionSummary × Nat) :=
  if truthyOptStr search && ftsGhostMatch st (search.getD "")
      && st.sessions.any (rowMatchesPrefilters project date_from date_to) then
    Except.error "database disk image is malformed"
  else
    let filtered := st.sessions.filter
      (rowMatchesFilters st project date_from date_to search)
    let total := filtered.length
    let page := ((sortSessionsDesc filtered).drop offset).take limit
    Except.ok (page.map sessionRowToSummary, total)

/-- A stored `events` row read back into a `TimelineEvent` (session_db.py
lines 399-414). -/
def dbRowToEvent (e : DbEventRow) : TimelineEvent :=
  { id := e.event_id, type := e.type, timestamp := e.timestamp,
    content := e.content, tool_name := e.tool_name,
    tool_input := e.tool_input, tool_id := e.tool_id,
    files_affected := e.files_affected.getD [] }

/-- `SessionDatabase.get_session_by_id` (session_db.py lines 333-441): not
found / file vanished → `none`; live mtime newer than `file_mtime` → parse
the JSONL directly (stale path); otherwise reconstruct from the stored
rows, dropping `thinking` rows (without touching stored identifiers) when
`include_thinking` is false.  `st.events` is kept in rowid order, which is
what `ORDER BY id ASC` returns.  (The `except` fallback of lines 442-462
is unreachable here: the modelled operations do not raise.) -/
def SessionDatabase.get_session_by_id (st : DbState) (fs : FileSystem)
    (session_id : String) (include_thinking : Bool) : Option SessionDetail :=
  match st.sessions.find? (fun s => s.session_id = session_id) with
  | none => none
  | some row =>
    match fs row.file_path with
    | none => none
    | some file =>
      if row.file_mtime < file.mtime then
        some (get_session_detail file.lines row.file_path
          row.project_path row.project_name include_thinking)
      else
        let metadata := st.session_metadata.find?
          (fun m => m.session_id = session_id)
        let event_rows := st.events.filter (fun e => e.session_id = session_id)
        let event_rows :=
          if ¬ include_thinking then
            event_rows.filter (fun e => !decide (e.type = "thinking"))
          else event_rows
        some {
          session_id := row.session_id, project_path := row.project_path,
          project_name := row.project_name, file_path := row.file_path,
          cwd := row.cwd, git_branch := row.git_branch,
          start_time := row.start_time, end_time := row.end_time,
          duration_seconds := row.duration_seconds,
          files_modified := (metadata.map (fun m => m.files_modified)).getD [],
          files_read := (metadata.map (fun m => m.files_read)).getD [],
          tools_used := (metadata.map (fun m => m.tools_used)).getD [],
          phases := (metadata.map (fun m => m.phases)).getD [],
          decisions := (metadata.map (fun m => m.decisions)).getD [],
          events := event_rows.map dbRowToEvent }

/-- Insert/overwrite in a Python dict modelled as an insertion-ordered
association list (overwriting keeps the key's position). -/
def dictUpsert (l : List (String × Nat)) (k : String) (v : Nat) :
    List (String × Nat) :=
  if l.any (fun p => p.1 = k) then
    l.map (fun p => if p.1 = k then (k, v) else p)
  else l ++ [(k, v)]

/-- `SessionDatabase.check_stale_sessions` (session_db.py lines 464-504).
`diskFiles` is the traversal result of `projects_dir.rglob("*.jsonl")`
(empty when the projects directory does not exist).  The `indexed_files`
dict maps each indexed `file_path` to its recorded `file_mtime`; a file is
reported when it exists with a strictly newer mtime, and every on-disk
file with no index entry is reported as new. -/
def SessionDatabase.check_stale_sessions (st : DbState) (fs : FileSystem)
    (diskFiles : List String) : List String :=
  let indexed_files := st.sessions.foldl
    (fun acc s => dictUpsert acc s.file_path s.file_mtime) []
  let stale := indexed_files.filterMap (fun pm =>
    match fs pm.1 with
    | some f => if pm.2 < f.mtime then some pm.1 else none
    | none => none)
  stale ++ diskFiles.filter
    (fun f => !indexed_files.any (fun p => p.1 = f))

/-! ## Spec-side predicates and invariants -/

/-- The FTS mirror is in lockstep with the `events` table (spec §4.2:
"full-text search is maintained as a derived structure kept in lockstep
with event content writes").  This is what the schema's triggers are
commented to maintain ("Triggers to keep FTS5 in sync with events table");
the defective `events_ad` trigger breaks it on every event delete. -/
def ftsConsistent (st : DbState) : Prop :=
  st.events_fts = st.events.map mirrorRow

/-- What actually survives of the mirror relationship on the real schema:
every live `events` row has its index entry; an index entry whose rowid is
still live is exactly that row's mirror; and all rowids stay below the
AUTOINCREMENT counter, so a deleted rowid is never reused.  Unlike
`ftsConsistent` this holds in every reachable store state — it allows the
ghost entries that the defective `events_ad` trigger leaves behind for
deleted rows. -/
def FtsInv (st : DbState) : Prop :=
  (∀ e ∈ st.events, mirrorRow e ∈ st.events_fts) ∧
  (∀ e ∈ st.events, ∀ f ∈ st.events_fts, f.rowid = e.rowid → f = mirrorRow e) ∧
  (∀ e ∈ st.events, e.rowid < st.nextRowid) ∧
  (∀ f ∈ st.events_fts, f.rowid < st.nextRowid)

/-- A search term that is one plain alphanumeric token (no FTS5 query
syntax, no `LIKE` wildcards): the fragment of search terms for which the
FTS5 `MATCH` model is exact. -/
def plainToken (t : String) : Prop :=
  t.data ≠ [] ∧ ∀ c ∈ t.data, (asciiIsAlpha c || asciiIsDigit c) = true

/-- The spec's search-match predicate, amended per the FTS5 token
semantics: the term occurs as a complete token of some stored event's
content for the session, or is a case-insensitive substring of project
name, working directory, or branch label.  (Written over the `events`
table itself — the primary storage — not the FTS mirror.) -/
def specSearchMatch (st : DbState) (t : String) (s : SessionRow) : Prop :=
  (∃ e ∈ st.events, e.session_id = s.session_id ∧
    ∃ c, e.content = some c ∧ (strLower t).data ∈ ftsTokens c) ∨
  likeContains t s.project_name = true ∨
  (∃ b, s.git_branch = some b ∧ likeContains t b = true) ∨
  (∃ w, s.cwd = some w ∧ likeContains t w = true)

/-- Session ids are unique (the `session_id` PRIMARY KEY). -/
def nodupSids (st : DbState) : Prop :=
  (st.sessions.map (fun s => s.session_id)).Nodup

/-- File paths are unique across session rows (the `file_path UNIQUE`
constraint). -/
def nodupPaths (st : DbState) : Prop :=
  (st.sessions.map (fun s => s.file_path)).Nodup

/-- Remove thinking events from a timeline. -/
def stripThinking (evs : List TimelineEvent) : List TimelineEvent :=
  evs.filter (fun e => !decide (e.type = "thinking"))

/-- Re-assign identifiers sequentially: the event at position `i` (counting
from the given starting counter) gets identifier `evt-(c+i+1)`. -/
def renumberFrom : Nat → List TimelineEvent → List TimelineEvent
  | _, [] => []
  | c, e :: rest => { e with id := "evt-" ++ toString (c + 1) } :: renumberFrom (c + 1) rest

/-- Relation between the running parse states of an `include_thinking=True`
run (`sT`) and an `include_thinking=False` run (`sF`) over the same
entries. -/
def ThinkRel (sT sF : ParseResult) : Prop :=
  sF.events = renumberFrom 0 (stripThinking sT.events) ∧
  sF.counter = (stripThinking sT.events).length ∧
  sT.counter = sT.events.length ∧
  sF.session_id = sT.session_id ∧ sF.cwd = sT.cwd ∧
  sF.git_branch = sT.git_branch ∧ sF.start_time = sT.start_time ∧
  sF.end_time = sT.end_time ∧ sF.files_modified = sT.files_modified ∧
  sF.files_read = sT.files_read ∧ sF.tools_used = sT.tools_used ∧
  sF.phases = sT.phases ∧ sF.decisions = sT.decisions

/-! ## Concrete inputs used by counterexamples and witnesses -/

/-- A filesystem (for `Path(...).exists()`) on which the decode docstring's
own example applies: `/home/brett-crane/code/app` is a real project of user
`brett-crane`. -/
def c4fs (p : String) : Bool :=
  ["/home", "/home/brett-crane", "/home/brett-crane/code",
   "/home/brett-crane/code/app"].contains p

/-- Scenario 1, line 1: user message `"Let's fix the bug in parser.py"`. -/
def c8msg1 : Message :=
  { role := some "user",
    content := some (.str "Let's fix the bug in parser.py") }

def c8e1 : Entry :=
  { type := some "user", timestamp := some 100, sessionId := some "sess-1",
    message := some c8msg1 }

def c8toolUse : ContentItem :=
  { type := some "tool_use", name := some "Edit",
    input := some { file_path := some "parser.py" }, id := some "toolu_01" }

/-- Scenario 1, line 2: assistant tool-invocation
(`Edit`, `file_path="parser.py"`). -/
def c8msg2 : Message :=
  { role := some "assistant", content := some (.items [c8toolUse]) }

def c8e2 : Entry :=
  { type := some "assistant", timestamp := some 110, message := some c8msg2 }

def c8toolResult : ContentItem :=
  { type := some "tool_result", tool_use_id := some "toolu_01",
    content := some (.str "ok") }

/-- Scenario 1, line 3: the tool result. -/
def c8msg3 : Message :=
  { role := some "user", content := some (.items [c8toolResult]) }

def c8e3 : Entry :=
  { type := some "user", timestamp := some 120, message := some c8msg3 }

def c8entries : List Entry := [c8e1, c8e2, c8e3]

/-- Six sentences each matching the first decision pattern with a captured
group of 22 characters (`> 20`). -/
def c9text : String :=
  "I'll aaaaaaaaaaaaaaaaaaaaa. I'll bbbbbbbbbbbbbbbbbbbbb. " ++
  "I'll ccccccccccccccccccccc. I'll ddddddddddddddddddddd. " ++
  "I'll eeeeeeeeeeeeeeeeeeeee. I'll fffffffffffffffffffff."

/-- A session whose only occurrence of the letters `arse` is inside one
event's text (`"the parser module was rewritten"`); project name, cwd and
branch contain no such substring. -/
def c2item : ContentItem :=
  { type := some "text", text := some "the parser module was rewritten" }

def c2msg : Message :=
  { role := some "assistant", content := some (.items [c2item]) }

def c2entry : Entry :=
  { type := some "assistant", timestamp := some 50, sessionId := some "s1",
    cwd := some "/work/app", gitBranch := some "main",
    message := some c2msg }

def c2path : String := "/projects/-work-app/s1.jsonl"

def c2fs : FileSystem := fun p =>
  if p = c2path then some { mtime := 10, size := 3, lines := [some c2entry] }
  else none

/-- The store after indexing that one session. -/
def c2state : DbState :=
  (index_session c2fs (fun _ => false) c2path "/work/app" "app" {}).1

/-- A session carrying one thinking block followed by two text blocks. -/
def c5items : List ContentItem :=
  [{ type := some "thinking", thinking := some "let me think" },
   { type := some "text", text := some "first answer" },
   { type := some "text", text := some "second answer" }]

def c5msg : Message :=
  { role := some "assistant", content := some (.items c5items) }

def c5entries : List Entry :=
  [{ type := some "assistant", timestamp := some 10, sessionId := some "s5",
     message := some c5msg }]

/-- The same session behind a stale index entry (`file_mtime` 5 recorded,
live mtime 9), so that `get_session_by_id` takes the direct-parse path. -/
def c5row : SessionRow :=
  { session_id := "s5", project_path := "/w", project_name := "w",
    file_path := "/projects/-w/s5.jsonl", file_mtime := 5 }

def c5fs : FileSystem := fun p =>
  if p = "/projects/-w/s5.jsonl" then
    some { mtime := 9, size := 1, lines := [some (c5entries.headD {})] }
  else none

def c5state : DbState := { sessions := [c5row] }

def NoThink (st : ParseResult) : Prop :=
  ∀ e ∈ st.events, ¬ e.type = "thinking"

def StoredNoThink (sid : String) (st : DbState) : Prop :=
  ∀ e ∈ st.events, e.session_id = sid → ¬ e.type = "thinking"

def c10file : FsFile := { mtime := 10, size := 3, lines := [some c2entry] }

def c10ev : DbEventRow :=
  { rowid := 1, session_id := "s1", event_id := "evt-1", type := "assistant",
    timestamp := some 50, content := some "the parser module was rewritten" }

def sessionsDict (l : List SessionRow) (acc : List (String × Nat)) :
    List (String × Nat) :=
  l.foldl (fun a s => dictUpsert a s.file_path s.file_mtime) acc

def c7file2 : FsFile := { mtime := 99, size := 3, lines := [some c2entry] }

def c7fs2 : FileSystem := fun p => if p = c2path then some c7file2 else none

def emptyDetail : SessionDetail :=
  { session_id := "", project_path := "", project_name := "", file_path := "" }

def c5rowF : SessionRow :=
  { session_id := "s5f", project_path := "/w", project_name := "w",
    file_path := "/projects/-w/s5f.jsonl", file_mtime := 9 }

def c5fileF : FsFile := { mtime := 9, size := 1, lines := [] }

def c5fsF : FileSystem := fun p =>
  if p = "/projects/-w/s5f.jsonl" then some c5fileF else none

def c5evRow1 : DbEventRow :=
  { rowid := 1, session_id := "s5f", event_id := "evt-1", type := "thinking",
    content := some "hmm" }

def c5evRow2 : DbEventRow :=
  { rowid := 2, session_id := "s5f", event_id := "evt-2", type := "assistant",
    content := some "answer" }

def c5stateF : DbState :=
  { sessions := [c5rowF], events := [c5evRow1, c5evRow2],
    events_fts := [mirrorRow c5evRow1, mirrorRow c5evRow2],
    session_metadata := [], nextRowid := 3 }

def c5dT : SessionDetail :=
  (SessionDatabase.get_session_by_id c5stateF c5fsF "s5f" true).getD emptyDetail

def c5dF : SessionDetail :=
  (SessionDatabase.get_session_by_id c5stateF c5fsF "s5f" false).getD emptyDetail

def c2row : SessionRow :=
  indexSessionRow (get_session_summary [some c2entry] c2path 3 "/work/app" "app")
    c2path 10

/-- The c2 session file after an edit: the event text no longer contains
the word `parser`. -/
def c6item : ContentItem :=
  { type := some "text", text := some "the module was rewritten again" }

def c6msg : Message :=
  { role := some "assistant", content := some (.items [c6item]) }

def c6entry : Entry :=
  { type := some "assistant", timestamp := some 60, sessionId := some "s1",
    cwd := some "/work/app", gitBranch := some "main",
    message := some c6msg }

def c6fs : FileSystem := fun p =>
  if p = c2path then some { mtime := 20, size := 3, lines := [some c6entry] }
  else none

/-- The store after indexing the c2 session and then re-indexing its edited
file (the normal stale-sync flow). -/
def c6state : DbState :=
  (index_session c6fs (fun _ => false) c2path "/work/app" "app" c2state).1

set_option maxRecDepth 8000

/-! ## Claim theorems -/

/-- C1: the spec requires a working search-structure repair operation, but
with the SQLite backend enabled `SessionIndexer.repair_fts5_if_needed()`
cannot return a boolean: it delegates to a `SessionDatabase` attribute
named `repair_fts5_if_needed`, and `SessionDatabase` defines no method of
that name, so Python attribute dispatch raises `AttributeError` for every
store state. -/
theorem C1_repair_raises_attribute_error :
    SessionDatabase.hasMethod SessionIndexer.repairDelegateTarget = false ∧
    SessionIndexer.repair_fts5_if_needed true = RepairOutcome.attributeError := by
  decide

/-- C4: the two project-path decoders disagree.  On the very example of the
`SessionDatabase._decode_project_path` docstring — encoded name
`-home-brett-crane-code-app`, with `/home/brett-crane/...` existing on
disk — the database decoder splits every dash and returns
`/home/brett/crane/code/app` (it never consults the filesystem), while the
indexer decoder returns the documented `/home/brett-crane/code/app`. -/
theorem C4_decoders_disagree :
    SessionDatabase.decode_project_path "-home-brett-crane-code-app"
      = "/home/brett/crane/code/app" ∧
    SessionIndexer.decode_project_path c4fs "-home-brett-crane-code-app"
      = "/home/brett-crane/code/app" ∧
    SessionDatabase.decode_project_path "-home-brett-crane-code-app"
      ≠ SessionIndexer.decode_project_path c4fs "-home-brett-crane-code-app" := by
  decide

/-- C3 counterexample: on a file with zero valid records the
summary-producing parse does *not* derive the session identifier from the
file stem — it returns the literal `"unknown"` (log_parser.py line 255),
while the claim (and the detail path) would give the stem `abc`. -/
theorem C3_cex_summary_id_not_stem :
    parse_jsonl_file [none] = [] ∧
    (get_session_summary [none] "/p/abc.jsonl" 7 "/proj" "proj").session_id
      = "unknown" ∧
    pathStem "/p/abc.jsonl" = "abc" ∧
    ("unknown" : String) ≠ "abc" := by
  decide

/-- C8 counterexample: on the 3-line scenario file, `decisions` is empty —
decision phrases are mined only from assistant `text` blocks (the
assistant entry here carries only a `tool_use` block), and the 16-character
phrase `update parser.py` would fail the `> 20` length filter anyway — so
no phrase starting with `update parser.py` is present. -/
theorem C8_cex_decisions_empty :
    (process_entries c8entries false).decisions = [] := by
  decide

/-- C8 amended: parsing the scenario file yields exactly 3 events of kinds
user / tool-invocation / tool-result in order, `files_modified` equal to
the one-element set containing `parser.py` — but an empty `decisions`
list. -/
theorem C8_scenario1_amended :
    (process_entries c8entries false).events.map (fun e => e.type)
      = ["user", "tool_use", "tool_result"] ∧
    (process_entries c8entries false).files_modified = ["parser.py"] ∧
    (process_entries c8entries false).decisions = [] ∧
    (get_session_detail [some c8e1, some c8e2, some c8e3] "/p/sess-1.jsonl"
      "/proj" "proj" false).files_modified = ["parser.py"] := by
  decide

/-- C9 counterexample: a text with six pattern-1 matches, each longer than
20 characters, yields only 5 decisions — the per-pattern cap is
`matches[:5]` (log_parser.py line 77), not the 10 the claim states. -/
theorem C9_cex_per_pattern_cap_is_5 :
    (decisionFindAll decisionPrefixes1 c9text).length = 6 ∧
    (decisionFindAll decisionPrefixes1 c9text).all (fun m => 20 < m.length)
      = true ∧
    (detect_decisions c9text).length = 5 := by
  decide

/-- C5 counterexample: on a stale session holding 1 thinking event and 2
other events, `get_session_by_id(..., include_thinking=False)` returns the
two non-thinking events with identifiers `evt-1`, `evt-2`, but in the
`include_thinking=True` sequence those same events carry `evt-2`, `evt-3`
— the identifiers are renumbered, contradicting the claim. -/
theorem C5_cex_ids_renumbered :
    (SessionDatabase.get_session_by_id c5state c5fs "s5" false).map
      (fun d => d.events.map (fun e => e.id)) = some ["evt-1", "evt-2"] ∧
    (SessionDatabase.get_session_by_id c5state c5fs "s5" true).map
      (fun d => (stripThinking d.events).map (fun e => e.id))
      = some ["evt-2", "evt-3"] ∧
    (["evt-1", "evt-2"] : List String) ≠ ["evt-2", "evt-3"] := by
  decide

/-- C2 counterexample: a session whose only occurrence of the search term
`arse` is as a mid-token substring of one event's text is *not* returned —
FTS5 matches whole tokens, not substrings — and no metadata column
contains it either, so the query yields the empty page and count 0 where
the claim requires the session to be returned. -/
theorem C2_cex_substring_not_returned :
    strIsSubstr "arse" "the parser module was rewritten" = true ∧
    c2state.events.map (fun e => e.content)
      = [some "the parser module was rewritten"] ∧
    likeContains "arse" "app" = false ∧
    likeContains "arse" "/work/app" = false ∧
    likeContains "arse" "main" = false ∧
    SessionDatabase.get_sessions c2state none none none (some "arse") 0 20
      = Except.ok ([], 0) := by
  refine ⟨by decide, by decide, by decide, by decide, by decide, rfl⟩

/-- C3 amended: on a source file with zero valid (parseable) records both
parse operations succeed and return a minimal record with all metadata
empty — the detail parse derives the identifier from the file stem, while
the summary parse returns the placeholder identifier `unknown`. -/
theorem C3_empty_file_minimal (lines : List (Option Entry)) (fp : String)
    (size : Nat) (pp pn : String) (it : Bool)
    (h : parse_jsonl_file lines = []) :
    get_session_summary lines fp size pp pn =
      { session_id := "unknown", project_path := pp, project_name := pn,
        file_path := fp, file_size_bytes := size } ∧
    get_session_detail lines fp pp pn it =
      { session_id := pathStem fp, project_path := pp, project_name := pn,
        file_path := fp } := by
  constructor
  · unfold get_session_summary
    rw [h]
    rfl
  · unfold get_session_detail
    rw [h]
    rfl

/-- C3 witness: the amended theorem applied to a concrete unparsable
one-line file named `abc.jsonl`. -/
theorem C3_empty_file_minimal_witness :
    get_session_summary [none] "/p/abc.jsonl" 7 "/proj" "proj" =
      { session_id := "unknown", project_path := "/proj",
        project_name := "proj", file_path := "/p/abc.jsonl",
        file_size_bytes := 7 } ∧
    get_session_detail [none] "/p/abc.jsonl" "/proj" "proj" false =
      { session_id := pathStem "/p/abc.jsonl", project_path := "/proj",
        project_name := "proj", file_path := "/p/abc.jsonl" } :=
  C3_empty_file_minimal [none] "/p/abc.jsonl" 7 "/proj" "proj" false (by decide)

/-- C9 amended: for every input text the decision heuristic returns at most
10 decisions, and every returned decision is the stripped form of a match
of one of the two decision-intent patterns, drawn from the first **5**
matches of its pattern and longer than 20 characters. -/
theorem C9_decisions_caps (text : String) :
    (detect_decisions text).length ≤ 10 ∧
    ∀ d ∈ detect_decisions text, ∃ m,
      (m ∈ (decisionFindAll decisionPrefixes1 text).take 5 ∨
       m ∈ (decisionFindAll decisionPrefixes2 text).take 5) ∧
      20 < m.length ∧ d = stripStr m := by
  constructor
  · exact List.length_take_le 10 _
  · intro d hd
    unfold detect_decisions at hd
    have hd' : d ∈ _ ++ _ := List.take_subset _ _ hd
    rcases List.mem_append.1 hd' with h | h <;>
    · simp only [List.mem_map, List.mem_filter, decide_eq_true_eq] at h
      obtain ⟨m, ⟨hm, hlen⟩, rfl⟩ := h
      first
      | exact ⟨m, Or.inl hm, hlen, rfl⟩
      | exact ⟨m, Or.inr hm, hlen, rfl⟩

/-- C9 witness: the amended theorem applied to the six-sentence text, with
its first returned decision. -/
theorem C9_decisions_caps_witness :
    (detect_decisions c9text).length ≤ 10 ∧
    ∃ m, (m ∈ (decisionFindAll decisionPrefixes1 c9text).take 5 ∨
          m ∈ (decisionFindAll decisionPrefixes2 c9text).take 5) ∧
         20 < m.length ∧ "aaaaaaaaaaaaaaaaaaaaa." = stripStr m :=
  ⟨(C9_decisions_caps c9text).1,
   (C9_decisions_caps c9text).2 "aaaaaaaaaaaaaaaaaaaaa." (by decide)⟩
theorem runStmts_none_or_apply (oracle : Nat → Bool)
    (ops : List (DbState → DbState)) (i : Nat) (st : DbState) :
    runStmts oracle ops i st = none ∨
    runStmts oracle ops i st = some (applyStmts ops st) := by
  induction ops generalizing i st with
  | nil => exact Or.inr rfl
  | cons op ops ih =>
    unfold runStmts
    by_cases h : oracle i
    · simp [h]
    · simpa [h, applyStmts] using ih (i + 1) (op st)

theorem ftsInv_upsert (r : SessionRow) (st : DbState) (h : FtsInv st) :
    FtsInv (dbUpsertSession r st) := by
  obtain ⟨hmir, huniq, hbde, hbdf⟩ := h
  unfold FtsInv dbUpsertSession
  exact ⟨fun e he => hmir e (List.mem_of_mem_filter he),
    fun e he f hf => huniq e (List.mem_of_mem_filter he) f hf,
    fun e he => hbde e (List.mem_of_mem_filter he), hbdf⟩

theorem ftsInv_delete (sid : String) (st : DbState) (h : FtsInv st) :
    FtsInv (dbDeleteEvents sid st) := by
  obtain ⟨hmir, huniq, hbde, hbdf⟩ := h
  unfold FtsInv dbDeleteEvents
  exact ⟨fun e he => hmir e (List.mem_of_mem_filter he),
    fun e he f hf => huniq e (List.mem_of_mem_filter he) f hf,
    fun e he => hbde e (List.mem_of_mem_filter he), hbdf⟩

theorem ftsInv_insert (sid : String) (ev : TimelineEvent) (st : DbState)
    (h : FtsInv st) : FtsInv (dbInsertEvent sid ev st) := by
  obtain ⟨hmir, huniq, hbde, hbdf⟩ := h
  unfold FtsInv dbInsertEvent
  refine ⟨?_, ?_, ?_, ?_⟩
  · intro e he
    rcases List.mem_append.1 he with h' | h'
    · exact List.mem_append.2 (Or.inl (hmir e h'))
    · obtain rfl := List.mem_singleton.mp h'
      exact List.mem_append.2 (Or.inr (List.mem_singleton.mpr rfl))
  · intro e he f hf hrid
    rcases List.mem_append.1 he with he' | he'
    · rcases List.mem_append.1 hf with hf' | hf'
      · exact huniq e he' f hf' hrid
      · obtain rfl := List.mem_singleton.mp hf'
        exact absurd hrid.symm (Nat.ne_of_lt (hbde e he'))
    · obtain rfl := List.mem_singleton.mp he'
      rcases List.mem_append.1 hf with hf' | hf'
      · exact absurd hrid (Nat.ne_of_lt (hbdf f hf'))
      · obtain rfl := List.mem_singleton.mp hf'
        rfl
  · intro e he
    rcases List.mem_append.1 he with h' | h'
    · exact Nat.lt_succ_of_lt (hbde e h')
    · obtain rfl := List.mem_singleton.mp h'
      exact Nat.lt_succ_self _
  · intro f hf
    rcases List.mem_append.1 hf with h' | h'
    · exact Nat.lt_succ_of_lt (hbdf f h')
    · obtain rfl := List.mem_singleton.mp h'
      exact Nat.lt_succ_self _

theorem ftsInv_metadata (m : MetadataRow) (st : DbState) (h : FtsInv st) :
    FtsInv (dbUpsertMetadata m st) := h

theorem ftsInv_indexStmts (s : SessionSummary) (d : SessionDetail)
    (fp : String) (mt : Nat) :
    ∀ op ∈ indexSessionStmts s d fp mt, ∀ st, FtsInv st → FtsInv (op st) := by
  intro op hop st hst
  unfold indexSessionStmts at hop
  simp only [List.mem_append, List.mem_cons, List.mem_singleton, List.mem_map,
    List.not_mem_nil, or_false] at hop
  rcases hop with ((rfl | rfl) | ⟨ev, _, rfl⟩) | rfl
  · exact ftsInv_upsert _ _ hst
  · exact ftsInv_delete _ _ hst
  · exact ftsInv_insert _ _ _ hst
  · exact ftsInv_metadata _ _ hst

theorem ftsInv_applyStmts (ops : List (DbState → DbState))
    (hops : ∀ op ∈ ops, ∀ st, FtsInv st → FtsInv (op st)) (st : DbState)
    (hst : FtsInv st) : FtsInv (applyStmts ops st) := by
  induction ops generalizing st with
  | nil => exact hst
  | cons op ops ih =>
    exact ih (fun o ho s hs => hops o (List.mem_cons_of_mem _ ho) s hs)
      (op st) (hops op (List.mem_cons_self _ _) st hst)

theorem ftsInv_empty : FtsInv {} := by
  unfold FtsInv
  refine ⟨?_, ?_, ?_, ?_⟩ <;> intro x hx <;> cases hx

theorem ftsInv_index_session (fs : FileSystem) (oracle : Nat → Bool)
    (fp pp pn : String) (st : DbState) (h : FtsInv st) :
    FtsInv (index_session fs oracle fp pp pn st).1 := by
  unfold index_session
  cases hfs : fs fp with
  | none => exact h
  | some file =>
    simp only [runTransaction]
    rcases runStmts_none_or_apply oracle
      (indexSessionStmts (get_session_summary file.lines fp file.size pp pn)
        (get_session_detail file.lines fp pp pn false) fp file.mtime) 0 st
      with hr | hr <;> rw [hr]
    · exact h
    · exact ftsInv_applyStmts _ (ftsInv_indexStmts _ _ _ _) st h

/-- C6: refuted.  `index_session` does run as one transaction, but the
full-text mirror is not updated within it: re-indexing the already-indexed
c2 session from its edited file commits successfully, yet the old event's
index entry survives as a ghost — the external-content `events_ad` trigger
cannot unindex a row whose content is already deleted — so the mirror
leaves lockstep with the `events` table, and the next search whose term
reaches the ghost fails with "database disk image is malformed".  Readers
therefore do observe a partially updated Index Entry, against the claim and
the schema comment "Triggers to keep FTS5 in sync with events table". -/
theorem C6_reindex_leaves_fts_ghost :
    (index_session c6fs (fun _ => false) c2path "/work/app" "app" c2state).2
      = true ∧
    ¬ ftsConsistent c6state ∧
    (∃ f ∈ c6state.events_fts, ∀ e ∈ c6state.events, e.rowid ≠ f.rowid) ∧
    SessionDatabase.get_sessions c6state none none none (some "parser") 0 20
      = Except.error "database disk image is malformed" := by
  refine ⟨by decide, ?_, by decide, rfl⟩
  unfold ftsConsistent
  decide

theorem updateEntryMeta_events (st : ParseResult) (e : Entry) :
    (updateEntryMeta st e).events = st.events := rfl

theorem updateEntryMeta_counter (st : ParseResult) (e : Entry) :
    (updateEntryMeta st e).counter = st.counter := rfl

theorem noThink_processUserItem (ts : Option Nat) (st : ParseResult)
    (item : ContentItem) (h : NoThink st) :
    NoThink (processUserItem ts st item) := by
  unfold processUserItem
  split_ifs
  · intro e he
    rcases List.mem_append.1 he with h' | h'
    · exact h e h'
    · obtain rfl := List.mem_singleton.mp h'
      simp
  · exact h

theorem noThink_processAssistantItem (ts : Option Nat) (st : ParseResult)
    (item : ContentItem) (h : NoThink st) :
    NoThink (processAssistantItem false ts st item) := by
  unfold processAssistantItem
  split_ifs <;>
    first
    | exact (‹False›).elim
    | exact h
    | · intro e he
        rcases List.mem_append.1 he with h' | h'
        · exact h e h'
        · obtain rfl := List.mem_singleton.mp h'
          simp

theorem noThink_foldl {α : Type} (step : ParseResult → α → ParseResult)
    (hstep : ∀ st item, NoThink st → NoThink (step st item))
    (l : List α) (st : ParseResult) (h : NoThink st) :
    NoThink (l.foldl step st) := by
  induction l generalizing st with
  | nil => exact h
  | cons x xs ih => exact ih (step st x) (hstep st x h)

theorem noThink_processEntry (st : ParseResult) (e : Entry) (h : NoThink st) :
    NoThink (processEntry false st e) := by
  unfold processEntry
  have hmeta : NoThink (updateEntryMeta st e) := by
    intro ev hev
    rw [updateEntryMeta_events] at hev
    exact h ev hev
  dsimp only
  by_cases h1 : e.type = some "queue-operation"
  · rw [if_pos h1]
    exact hmeta
  · rw [if_neg h1]
    cases hc : (e.message.getD {}).content with
    | none => exact hmeta
    | some c =>
      dsimp only
      by_cases h2 : ¬ c.isTruthy = true
      · rw [if_pos h2]
        exact hmeta
      · rw [if_neg h2]
        by_cases h3 : (e.message.getD {}).role.getD "" = "user"
        · rw [if_pos h3]
          cases c with
          | str s =>
            intro ev hev
            rcases List.mem_append.1 hev with h' | h'
            · exact hmeta ev h'
            · obtain rfl := List.mem_singleton.mp h'
              simp
          | items l =>
            exact noThink_foldl _ (noThink_processUserItem _) l _ hmeta
          | other => exact hmeta
        · rw [if_neg h3]
          by_cases h4 : (e.message.getD {}).role.getD "" = "assistant"
          · rw [if_pos h4]
            cases c with
            | str s => exact hmeta
            | items l =>
              exact noThink_foldl _ (noThink_processAssistantItem _) l _ hmeta
            | other => exact hmeta
          · rw [if_neg h4]
            exact hmeta

theorem noThink_process_entries (entries : List Entry) :
    ∀ e ∈ (process_entries entries false).events, ¬ e.type = "thinking" := by
  have : NoThink (entries.foldl (processEntry false) {}) :=
    noThink_foldl _ noThink_processEntry entries {} (by intro e he; cases he)
  intro e he
  exact this e he

theorem snt_after_delete (sid : String) (st : DbState) :
    StoredNoThink sid (dbDeleteEvents sid st) := by
  intro e he heq
  unfold dbDeleteEvents at he
  simp only [List.mem_filter, Bool.not_eq_true', decide_eq_false_iff_not] at he
  exact absurd heq he.2

theorem snt_insert (sid : String) (ev : TimelineEvent) (st : DbState)
    (h : StoredNoThink sid st) (hev : ¬ ev.type = "thinking") :
    StoredNoThink sid (dbInsertEvent sid ev st) := by
  intro e he heq
  unfold dbInsertEvent at he
  rcases List.mem_append.1 he with h' | h'
  · exact h e h' heq
  · obtain rfl := List.mem_singleton.mp h'
    exact hev

theorem snt_fold_inserts (sid : String) (l : List TimelineEvent) (st : DbState)
    (h : StoredNoThink sid st) (hl : ∀ ev ∈ l, ¬ ev.type = "thinking") :
    StoredNoThink sid (applyStmts (l.map (dbInsertEvent sid)) st) := by
  induction l generalizing st with
  | nil => exact h
  | cons ev evs ih =>
    exact ih (dbInsertEvent sid ev st)
      (snt_insert sid ev st h (hl ev (List.mem_cons_self _ _)))
      (fun x hx => hl x (List.mem_cons_of_mem _ hx))

theorem snt_metadata (sid : String) (m : MetadataRow) (st : DbState)
    (h : StoredNoThink sid st) : StoredNoThink sid (dbUpsertMetadata m st) := h

theorem detail_events_eq (lines : List (Option Entry)) (fp pp pn : String)
    (it : Bool) :
    (get_session_detail lines fp pp pn it).events =
      (process_entries (parse_jsonl_file lines) it).events := rfl

theorem snt_applyStmts_index (s : SessionSummary) (d : SessionDetail)
    (fp : String) (mt : Nat) (st : DbState)
    (hd : ∀ ev ∈ d.events, ¬ ev.type = "thinking") :
    StoredNoThink s.session_id
      (applyStmts (indexSessionStmts s d fp mt) st) := by
  unfold indexSessionStmts
  have h2 : StoredNoThink s.session_id
      (dbDeleteEvents s.session_id
        (dbUpsertSession (indexSessionRow s fp mt) st)) :=
    snt_after_delete _ _
  show StoredNoThink s.session_id
    (applyStmts (([dbUpsertSession (indexSessionRow s fp mt),
      dbDeleteEvents s.session_id] ++ d.events.map (dbInsertEvent s.session_id))
      ++ [dbUpsertMetadata (indexMetadataRow s d)]) st)
  rw [show ([dbUpsertSession (indexSessionRow s fp mt),
      dbDeleteEvents s.session_id] ++ d.events.map (dbInsertEvent s.session_id))
      ++ [dbUpsertMetadata (indexMetadataRow s d)]
    = [dbUpsertSession (indexSessionRow s fp mt), dbDeleteEvents s.session_id]
      ++ (d.events.map (dbInsertEvent s.session_id)
          ++ [dbUpsertMetadata (indexMetadataRow s d)]) from by
    simp [List.append_assoc]]
  unfold applyStmts
  rw [List.foldl_append, List.foldl_append]
  exact snt_metadata _ _ _ (snt_fold_inserts _ _ _ h2 hd)

theorem get_fresh_no_thinking (st : DbState) (fs : FileSystem) (sid : String)
    (row : SessionRow) (file : FsFile) (d : SessionDetail)
    (hrow : st.sessions.find? (fun s => s.session_id = sid) = some row)
    (hfs : fs row.file_path = some file)
    (hmt : ¬ row.file_mtime < file.mtime)
    (hsnt : ∀ e ∈ st.events, e.session_id = sid → ¬ e.type = "thinking")
    (hget : SessionDatabase.get_session_by_id st fs sid true = some d) :
    ∀ ev ∈ d.events, ¬ ev.type = "thinking" := by
  unfold SessionDatabase.get_session_by_id at hget
  rw [hrow] at hget
  dsimp only at hget
  rw [hfs] at hget
  dsimp only at hget
  rw [if_neg hmt] at hget
  simp only [Bool.not_eq_true, if_neg] at hget
  injection hget with hget
  subst hget
  intro ev hev
  simp only [List.mem_map] at hev
  obtain ⟨e, he, rfl⟩ := hev
  have he' : e ∈ st.events.filter (fun x => x.session_id = sid) := by
    simpa using he
  have hmem : e ∈ st.events := List.mem_of_mem_filter he'
  have hsid : e.session_id = sid := by
    have := (List.mem_filter.1 he').2
    simpa using this
  exact hsnt e hmem hsid

theorem C10_fresh_entries_have_no_thinking :
    (∀ entries : List Entry,
      ∀ e ∈ (process_entries entries false).events, ¬ e.type = "thinking") ∧
    (∀ (fs : FileSystem) (oracle : Nat → Bool) (fp pp pn : String)
        (st : DbState) (file : FsFile),
      fs fp = some file →
      (index_session fs oracle fp pp pn st).2 = true →
      ∀ e ∈ (index_session fs oracle fp pp pn st).1.events,
        e.session_id =
          (get_session_summary file.lines fp file.size pp pn).session_id →
        ¬ e.type = "thinking") ∧
    (∀ (st : DbState) (fs : FileSystem) (sid : String) (row : SessionRow)
        (file : FsFile) (d : SessionDetail),
      st.sessions.find? (fun s => s.session_id = sid) = some row →
      fs row.file_path = some file →
      ¬ row.file_mtime < file.mtime →
      (∀ e ∈ st.events, e.session_id = sid → ¬ e.type = "thinking") →
      SessionDatabase.get_session_by_id st fs sid true = some d →
      ∀ ev ∈ d.events, ¬ ev.type = "thinking") := by
  refine ⟨noThink_process_entries, ?_, get_fresh_no_thinking⟩
  intro fs oracle fp pp pn st file hfs hok
  unfold index_session at hok ⊢
  rw [hfs] at hok ⊢
  dsimp only at hok ⊢
  rcases runStmts_none_or_apply oracle
    (indexSessionStmts (get_session_summary file.lines fp file.size pp pn)
      (get_session_detail file.lines fp pp pn false) fp file.mtime) 0 st
    with h | h
  · rw [runTransaction, h] at hok
    cases hok
  · rw [runTransaction, h]
    intro e he hsid
    refine snt_applyStmts_index _ _ _ _ st ?_ e he hsid
    rw [detail_events_eq]
    exact noThink_process_entries (parse_jsonl_file file.lines)

theorem C10_fresh_entries_have_no_thinking_witness :
    ¬ c10ev.type = "thinking" :=
  C10_fresh_entries_have_no_thinking.2.1 c2fs (fun _ => false) c2path
    "/work/app" "app" {} c10file rfl (by decide) c10ev (by decide) (by decide)
theorem dictUpsert_mem (acc : List (String × Nat)) (k : String) (v : Nat)
    (q : String × Nat) (hq : q ∈ dictUpsert acc k v) :
    q ∈ acc ∨ q = (k, v) := by
  unfold dictUpsert at hq
  split_ifs at hq with h
  · simp only [List.mem_map] at hq
    obtain ⟨p, hp, hpq⟩ := hq
    by_cases hk : p.1 = k
    · rw [if_pos hk] at hpq
      exact Or.inr hpq.symm
    · rw [if_neg hk] at hpq
      exact Or.inl (hpq ▸ hp)
  · rcases List.mem_append.1 hq with h' | h'
    · exact Or.inl h'
    · exact Or.inr (List.mem_singleton.mp h')

theorem dictUpsert_key_present (acc : List (String × Nat)) (k : String) (v : Nat) :
    (dictUpsert acc k v).any (fun p => p.1 = k) = true := by
  unfold dictUpsert
  split_ifs with h
  · simp only [List.any_eq_true] at h ⊢
    obtain ⟨p, hp, hpk⟩ := h
    refine ⟨(k, v), List.mem_map.2 ⟨p, hp, ?_⟩, by simp⟩
    rw [if_pos (by simpa using hpk)]
  · simp

theorem dictUpsert_preserves_key (acc : List (String × Nat)) (k k' : String)
    (v : Nat) (h : acc.any (fun p => p.1 = k) = true) :
    (dictUpsert acc k' v).any (fun p => p.1 = k) = true := by
  unfold dictUpsert
  split_ifs with hp
  · simp only [List.any_eq_true] at h ⊢
    obtain ⟨p, hmem, hpk⟩ := h
    by_cases hkk : p.1 = k'
    · exact ⟨(k', v), List.mem_map.2 ⟨p, hmem, by rw [if_pos hkk]⟩,
        by simp only [decide_eq_true_eq]; rw [← hkk]; simpa using hpk⟩
    · exact ⟨p, List.mem_map.2 ⟨p, hmem, by rw [if_neg hkk]⟩, hpk⟩
  · simp only [List.any_eq_true] at h ⊢
    obtain ⟨p, hmem, hpk⟩ := h
    exact ⟨p, List.mem_append.2 (Or.inl hmem), hpk⟩

theorem sessionsDict_mem_src (l : List SessionRow) (acc : List (String × Nat))
    (q : String × Nat) (hq : q ∈ sessionsDict l acc) :
    q ∈ acc ∨ ∃ s ∈ l, q = (s.file_path, s.file_mtime) := by
  induction l generalizing acc with
  | nil => exact Or.inl hq
  | cons s rest ih =>
    rcases ih (dictUpsert acc s.file_path s.file_mtime) hq with h | ⟨s', hs', rfl⟩
    · rcases dictUpsert_mem _ _ _ _ h with h' | h'
      · exact Or.inl h'
      · exact Or.inr ⟨s, List.mem_cons_self _ _, h'⟩
    · exact Or.inr ⟨s', List.mem_cons_of_mem _ hs', rfl⟩

theorem sessionsDict_monotone_key (l : List SessionRow)
    (acc : List (String × Nat)) (k : String)
    (h : acc.any (fun p => p.1 = k) = true) :
    (sessionsDict l acc).any (fun p => p.1 = k) = true := by
  induction l generalizing acc with
  | nil => exact h
  | cons s rest ih =>
    exact ih _ (dictUpsert_preserves_key _ _ _ _ h)

theorem sessionsDict_key_complete (l : List SessionRow)
    (acc : List (String × Nat)) (s : SessionRow) (hs : s ∈ l) :
    (sessionsDict l acc).any (fun p => p.1 = s.file_path) = true := by
  induction l generalizing acc with
  | nil => cases hs
  | cons x rest ih =>
    rcases List.mem_cons.1 hs with rfl | hs'
    · exact sessionsDict_monotone_key rest _ _
        (dictUpsert_key_present acc s.file_path s.file_mtime)
    · exact ih (dictUpsert acc x.file_path x.file_mtime) hs'

theorem sessionsDict_of_nodup (l : List SessionRow) (acc : List (String × Nat))
    (h : (acc.map Prod.fst ++ l.map (fun s => s.file_path)).Nodup) :
    sessionsDict l acc = acc ++ l.map (fun s => (s.file_path, s.file_mtime)) := by
  induction l generalizing acc with
  | nil => simp [sessionsDict]
  | cons s rest ih =>
    have hknot : ¬ acc.any (fun p => p.1 = s.file_path) = true := by
      intro hany
      simp only [List.any_eq_true, decide_eq_true_eq] at hany
      obtain ⟨p, hp, hpk⟩ := hany
      have h1 : p.1 ∈ acc.map Prod.fst := List.mem_map.2 ⟨p, hp, rfl⟩
      have h2 : s.file_path ∈ (s :: rest).map (fun s => s.file_path) := by simp
      have := (List.nodup_append.1 h).2.2
      exact this h1 (hpk ▸ h2)
    have hup : dictUpsert acc s.file_path s.file_mtime
        = acc ++ [(s.file_path, s.file_mtime)] := by
      unfold dictUpsert
      rw [if_neg hknot]
    show sessionsDict rest (dictUpsert acc s.file_path s.file_mtime) = _
    rw [hup, ih (acc ++ [(s.file_path, s.file_mtime)]) (by
      simp only [List.map_append, List.map_cons, List.map_nil] at h ⊢
      rw [List.append_assoc]
      simpa using h), List.append_assoc]
    simp

theorem filterMap_paths_sublist (l : List SessionRow)
    (g : SessionRow → Option String)
    (hg : ∀ s x, g s = some x → x = s.file_path) :
    (l.filterMap g).Sublist (l.map (fun s => s.file_path)) := by
  induction l with
  | nil => simp
  | cons s rest ih =>
    rw [List.filterMap_cons, List.map_cons]
    cases hgs : g s with
    | none => exact ih.cons _
    | some x =>
      obtain rfl := hg s x hgs
      exact ih.cons₂ _

theorem check_stale_mem (st : DbState) (fs : FileSystem)
    (diskFiles : List String) (hp : nodupPaths st) (p : String) :
    p ∈ SessionDatabase.check_stale_sessions st fs diskFiles ↔
      (∃ s ∈ st.sessions, s.file_path = p ∧
        ∃ f, fs p = some f ∧ s.file_mtime < f.mtime) ∨
      (p ∈ diskFiles ∧ ¬ ∃ s ∈ st.sessions, s.file_path = p) := by
  have hdict : sessionsDict st.sessions []
      = st.sessions.map (fun s => (s.file_path, s.file_mtime)) := by
    simpa using sessionsDict_of_nodup st.sessions [] (by simpa using hp)
  unfold SessionDatabase.check_stale_sessions
  dsimp only
  rw [show (st.sessions.foldl
      (fun acc s => dictUpsert acc s.file_path s.file_mtime) []) =
      st.sessions.map (fun s => (s.file_path, s.file_mtime)) from hdict]
  rw [List.filterMap_map]
  simp only [List.mem_append, List.mem_filterMap, List.mem_filter,
    Bool.not_eq_true', List.any_eq_false, Function.comp]
  constructor
  · rintro (⟨s, hs, hgs⟩ | ⟨hdisk, hnone⟩)
    · left
      refine ⟨s, hs, ?_⟩
      cases hfsp : fs s.file_path with
      | none => rw [hfsp] at hgs; cases hgs
      | some f =>
        rw [hfsp] at hgs
        dsimp only at hgs
        by_cases hlt : s.file_mtime < f.mtime
        · rw [if_pos hlt] at hgs
          injection hgs with hgs
          subst hgs
          exact ⟨rfl, f, hfsp, hlt⟩
        · rw [if_neg hlt] at hgs
          cases hgs
    · right
      refine ⟨hdisk, ?_⟩
      rintro ⟨s, hs, rfl⟩
      have := hnone (s.file_path, s.file_mtime) (List.mem_map.2 ⟨s, hs, rfl⟩)
      simp at this
  · rintro (⟨s, hs, rfl, f, hf, hlt⟩ | ⟨hdisk, hnone⟩)
    · left
      refine ⟨s, hs, ?_⟩
      rw [hf]
      dsimp only
      rw [if_pos hlt]
    · right
      refine ⟨hdisk, ?_⟩
      intro q hq
      simp only [List.mem_map] at hq
      obtain ⟨s, hs, rfl⟩ := hq
      simp only [decide_eq_false_iff_not]
      intro hpe
      exact hnone ⟨s, hs, of_decide_eq_true hpe⟩

theorem check_stale_nodup (st : DbState) (fs : FileSystem)
    (diskFiles : List String) (hp : nodupPaths st) (hd : diskFiles.Nodup) :
    (SessionDatabase.check_stale_sessions st fs diskFiles).Nodup := by
  have hdict : sessionsDict st.sessions []
      = st.sessions.map (fun s => (s.file_path, s.file_mtime)) := by
    simpa using sessionsDict_of_nodup st.sessions [] (by simpa using hp)
  unfold SessionDatabase.check_stale_sessions
  dsimp only
  rw [show (st.sessions.foldl
      (fun acc s => dictUpsert acc s.file_path s.file_mtime) []) =
      st.sessions.map (fun s => (s.file_path, s.file_mtime)) from hdict]
  rw [List.filterMap_map]
  have hg : ∀ (s : SessionRow) (x : String),
      (match fs s.file_path with
        | some f => if s.file_mtime < f.mtime then some s.file_path else none
        | none => none) = some x → x = s.file_path := by
    intro s x hsx
    cases hfsp : fs s.file_path with
    | none => rw [hfsp] at hsx; cases hsx
    | some f =>
      rw [hfsp] at hsx
      dsimp only at hsx
      by_cases hlt : s.file_mtime < f.mtime
      · rw [if_pos hlt] at hsx
        injection hsx with hsx
        exact hsx.symm
      · rw [if_neg hlt] at hsx
        cases hsx
  refine List.Nodup.append ?_ (hd.filter _) ?_
  · exact hp.sublist (filterMap_paths_sublist _ _ hg)
  · intro x hx1 hx2
    simp only [List.mem_filterMap, Function.comp] at hx1
    obtain ⟨s, hs, hgs⟩ := hx1
    obtain rfl := hg s x hgs
    have hx2' := (List.mem_filter.1 hx2).2
    simp only [Bool.not_eq_true', List.any_eq_false] at hx2'
    have := hx2' (s.file_path, s.file_mtime) (List.mem_map.2 ⟨s, hs, rfl⟩)
    simp at this

theorem index_success_sessions (fs : FileSystem) (oracle : Nat → Bool)
    (fp pp pn : String) (st : DbState) (file : FsFile)
    (hfs : fs fp = some file)
    (hok : (index_session fs oracle fp pp pn st).2 = true) :
    (index_session fs oracle fp pp pn st).1.sessions =
      st.sessions.filter (fun x =>
        !(decide (x.session_id =
            (get_session_summary file.lines fp file.size pp pn).session_id) ||
          decide (x.file_path = fp))) ++
      [indexSessionRow (get_session_summary file.lines fp file.size pp pn)
        fp file.mtime] := by
  unfold index_session at hok ⊢
  rw [hfs] at hok ⊢
  dsimp only at hok ⊢
  rcases runStmts_none_or_apply oracle
    (indexSessionStmts (get_session_summary file.lines fp file.size pp pn)
      (get_session_detail file.lines fp pp pn false) fp file.mtime) 0 st
    with h | h
  · rw [runTransaction, h] at hok
    cases hok
  · rw [runTransaction, h]
    dsimp only
    generalize (get_session_summary file.lines fp file.size pp pn) = S
    generalize hD : (get_session_detail file.lines fp pp pn false) = D
    show (applyStmts (indexSessionStmts S D fp file.mtime) st).sessions = _
    unfold indexSessionStmts applyStmts
    rw [List.foldl_append, List.foldl_append]
    have hins : ∀ (l : List TimelineEvent) (sid : String) (st₀ : DbState),
        ((l.map (dbInsertEvent sid)).foldl (fun s op => op s) st₀).sessions
          = st₀.sessions := by
      intro l sid
      induction l with
      | nil => intro st₀; rfl
      | cons ev evs ih =>
        intro st₀
        rw [List.map_cons, List.foldl_cons]
        exact ih (dbInsertEvent sid ev st₀)
    rw [show ∀ st₀ : DbState,
        ([dbUpsertMetadata (indexMetadataRow S D)].foldl (fun s op => op s) st₀)
          = dbUpsertMetadata (indexMetadataRow S D) st₀ from fun _ => rfl]
    show (dbUpsertMetadata (indexMetadataRow S D)
      ((D.events.map (dbInsertEvent S.session_id)).foldl (fun s op => op s)
        (dbDeleteEvents S.session_id
          (dbUpsertSession (indexSessionRow S fp file.mtime) st)))).sessions = _
    rw [show ∀ st₀ : DbState,
        (dbUpsertMetadata (indexMetadataRow S D) st₀).sessions = st₀.sessions
      from fun _ => rfl]
    rw [hins]
    rfl

theorem index_dict_fp (fs : FileSystem) (oracle : Nat → Bool)
    (fp pp pn : String) (st : DbState) (file : FsFile)
    (hfs : fs fp = some file)
    (hok : (index_session fs oracle fp pp pn st).2 = true) :
    (fp, file.mtime) ∈
      sessionsDict (index_session fs oracle fp pp pn st).1.sessions [] ∧
    (∀ q ∈ sessionsDict (index_session fs oracle fp pp pn st).1.sessions [],
      q.1 = fp → q.2 = file.mtime) ∧
    (sessionsDict (index_session fs oracle fp pp pn st).1.sessions []).any
      (fun p => p.1 = fp) = true := by
  rw [index_success_sessions fs oracle fp pp pn st file hfs hok]
  set L := st.sessions.filter (fun x =>
    !(decide (x.session_id =
        (get_session_summary file.lines fp file.size pp pn).session_id) ||
      decide (x.file_path = fp))) with hL
  have hLne : ∀ s ∈ L, s.file_path ≠ fp := by
    intro s hs
    have := (List.mem_filter.1 hs).2
    simp only [Bool.not_eq_true', Bool.or_eq_false_iff,
      decide_eq_false_iff_not] at this
    exact this.2
  have happ : sessionsDict (L ++
      [indexSessionRow (get_session_summary file.lines fp file.size pp pn)
        fp file.mtime]) []
      = dictUpsert (sessionsDict L []) fp file.mtime := by
    unfold sessionsDict
    rw [List.foldl_append]
    rfl
  have hfree : (sessionsDict L []).any (fun p => p.1 = fp) = false := by
    rw [Bool.eq_false_iff]
    intro hany
    simp only [List.any_eq_true, decide_eq_true_eq] at hany
    obtain ⟨q, hq, hqk⟩ := hany
    rcases sessionsDict_mem_src L [] q hq with h | ⟨s, hs, rfl⟩
    · cases h
    · exact hLne s hs hqk
  have hup : dictUpsert (sessionsDict L []) fp file.mtime
      = sessionsDict L [] ++ [(fp, file.mtime)] := by
    unfold dictUpsert
    rw [if_neg (by rw [hfree]; exact Bool.false_ne_true)]
  refine ⟨?_, ?_, ?_⟩
  · rw [happ, hup]
    exact List.mem_append.2 (Or.inr (List.mem_singleton.mpr rfl))
  · intro q hq hqk
    rw [happ, hup] at hq
    rcases List.mem_append.1 hq with h | h
    · rcases sessionsDict_mem_src L [] q h with h' | ⟨s, hs, rfl⟩
      · cases h'
      · exact absurd hqk (hLne s hs)
    · rw [List.mem_singleton.mp h]
  · rw [happ]
    exact dictUpsert_key_present _ _ _

/-- C7: the staleness scan returns exactly the stale-updated and the new
files, without duplicates; indexed files absent from disk are not
reported; after indexing a file and then bumping its mtime the scan
reports it, and after re-indexing it no longer does. -/
theorem C7_stale_scan_correct :
    (∀ (st : DbState) (fs : FileSystem) (diskFiles : List String),
      nodupPaths st → diskFiles.Nodup →
      (∀ p, p ∈ SessionDatabase.check_stale_sessions st fs diskFiles ↔
        (∃ s ∈ st.sessions, s.file_path = p ∧
          ∃ f, fs p = some f ∧ s.file_mtime < f.mtime) ∨
        (p ∈ diskFiles ∧ ¬ ∃ s ∈ st.sessions, s.file_path = p)) ∧
      (SessionDatabase.check_stale_sessions st fs diskFiles).Nodup) ∧
    (∀ (fs : FileSystem) (oracle : Nat → Bool) (fp pp pn : String)
        (st : DbState) (file : FsFile) (fs2 : FileSystem) (f2 : FsFile)
        (disk2 : List String),
      fs fp = some file →
      (index_session fs oracle fp pp pn st).2 = true →
      fs2 fp = some f2 → file.mtime < f2.mtime →
      fp ∈ SessionDatabase.check_stale_sessions
        (index_session fs oracle fp pp pn st).1 fs2 disk2) ∧
    (∀ (fs2 : FileSystem) (oracle2 : Nat → Bool) (fp pp pn : String)
        (st1 : DbState) (f2 : FsFile) (disk2 : List String),
      fs2 fp = some f2 →
      (index_session fs2 oracle2 fp pp pn st1).2 = true →
      fp ∉ SessionDatabase.check_stale_sessions
        (index_session fs2 oracle2 fp pp pn st1).1 fs2 disk2) := by
  refine ⟨fun st fs diskFiles hp hd =>
    ⟨check_stale_mem st fs diskFiles hp, check_stale_nodup st fs diskFiles hp hd⟩,
    ?_, ?_⟩
  · intro fs oracle fp pp pn st file fs2 f2 disk2 hfs hok hfs2 hlt
    obtain ⟨hmem, -, -⟩ := index_dict_fp fs oracle fp pp pn st file hfs hok
    unfold SessionDatabase.check_stale_sessions
    dsimp only
    refine List.mem_append.2 (Or.inl (List.mem_filterMap.2 ⟨(fp, file.mtime), hmem, ?_⟩))
    rw [hfs2]
    dsimp only
    rw [if_pos hlt]
  · intro fs2 oracle2 fp pp pn st1 f2 disk2 hfs2 hok hmem
    obtain ⟨-, huniq, hany⟩ := index_dict_fp fs2 oracle2 fp pp pn st1 f2 hfs2 hok
    unfold SessionDatabase.check_stale_sessions at hmem
    dsimp only at hmem
    rcases List.mem_append.1 hmem with h | h
    · obtain ⟨q, hq, hgq⟩ := List.mem_filterMap.1 h
      cases hq2 : fs2 q.1 with
      | none => rw [hq2] at hgq; cases hgq
      | some f' =>
        rw [hq2] at hgq
        dsimp only at hgq
        by_cases hlt : q.2 < f'.mtime
        · rw [if_pos hlt] at hgq
          injection hgq with hgq
          have hqv := huniq q hq hgq
          rw [hgq, hfs2] at hq2
          injection hq2 with hq2
          subst hq2
          rw [hqv] at hlt
          exact absurd hlt (lt_irrefl _)
        · rw [if_neg hlt] at hgq
          cases hgq
    · have hthis : (!(sessionsDict
          (index_session fs2 oracle2 fp pp pn st1).1.sessions []).any
          (fun p => decide (p.1 = fp))) = true := (List.mem_filter.1 h).2
      rw [hany] at hthis
      cases hthis

theorem C7_stale_scan_correct_witness :
    (SessionDatabase.check_stale_sessions c2state c2fs [c2path]).Nodup ∧
    c2path ∈ SessionDatabase.check_stale_sessions
      (index_session c2fs (fun _ => false) c2path "/work/app" "app" {}).1
      c7fs2 [] ∧
    c2path ∉ SessionDatabase.check_stale_sessions
      (index_session c7fs2 (fun _ => false) c2path "/work/app" "app" c2state).1
      c7fs2 [] :=
  ⟨(C7_stale_scan_correct.1 c2state c2fs [c2path]
      (by show (c2state.sessions.map (fun s => s.file_path)).Nodup; decide)
      (by decide)).2,
   C7_stale_scan_correct.2.1 c2fs (fun _ => false) c2path "/work/app" "app"
     {} c10file c7fs2 c7file2 [] rfl (by decide) rfl (by decide),
   C7_stale_scan_correct.2.2 c7fs2 (fun _ => false) c2path "/work/app" "app"
     c2state c7file2 [] rfl (by decide)⟩
theorem renumberFrom_append (xs : List TimelineEvent) (x : TimelineEvent)
    (c : Nat) :
    renumberFrom c (xs ++ [x]) =
      renumberFrom c xs ++
        [{ x with id := "evt-" ++ toString (c + xs.length + 1) }] := by
  induction xs generalizing c with
  | nil => simp [renumberFrom]
  | cons y ys ih =>
    rw [List.cons_append]
    unfold renumberFrom
    rw [ih (c + 1), List.cons_append]
    have : c + 1 + ys.length + 1 = c + (y :: ys).length + 1 := by
      simp [List.length_cons]
      omega
    rw [this]

theorem stripThinking_append (xs : List TimelineEvent) (e : TimelineEvent) :
    stripThinking (xs ++ [e]) =
      stripThinking xs ++ (if e.type = "thinking" then [] else [e]) := by
  unfold stripThinking
  rw [List.filter_append]
  congr 1
  by_cases h : e.type = "thinking" <;> simp [h]

theorem rel_updateEntryMeta (sT sF : ParseResult) (e : Entry)
    (h : ThinkRel sT sF) :
    ThinkRel (updateEntryMeta sT e) (updateEntryMeta sF e) := by
  obtain ⟨h1, h2, h3, h4, h5, h6, h7, h8, h9, h10, h11, h12, h13⟩ := h
  exact ⟨h1, h2, h3, by rw [updateEntryMeta, updateEntryMeta, h4],
    by rw [updateEntryMeta, updateEntryMeta, h5],
    by rw [updateEntryMeta, updateEntryMeta, h6],
    by rw [updateEntryMeta, updateEntryMeta, h7],
    by rw [updateEntryMeta, updateEntryMeta, h8],
    h9, h10, h11, h12, h13⟩

theorem rel_processUserItem (ts : Option Nat) (sT sF : ParseResult)
    (item : ContentItem) (h : ThinkRel sT sF) :
    ThinkRel (processUserItem ts sT item) (processUserItem ts sF item) := by
  obtain ⟨h1, h2, h3, h4, h5, h6, h7, h8, h9, h10, h11, h12, h13⟩ := h
  unfold processUserItem
  by_cases hit : item.type = some "tool_result"
  · rw [if_pos hit, if_pos hit]
    refine ⟨?_, ?_, ?_, h4, h5, h6, h7, h8, h9, h10, h11, h12, h13⟩
    · show sF.events ++ _ = renumberFrom 0 (stripThinking (sT.events ++ _))
      rw [stripThinking_append]
      rw [if_neg (by simp)]
      rw [renumberFrom_append, h1, h2]
      simp [Nat.zero_add]
    · show sF.counter + 1 = (stripThinking (sT.events ++ _)).length
      rw [stripThinking_append, if_neg (by simp), List.length_append, h2]
      rfl
    · show sT.counter + 1 = (sT.events ++ _).length
      rw [List.length_append, h3]
      rfl
  · rw [if_neg hit, if_neg hit]
    exact ⟨h1, h2, h3, h4, h5, h6, h7, h8, h9, h10, h11, h12, h13⟩

theorem rel_processAssistantItem (ts : Option Nat) (sT sF : ParseResult)
    (item : ContentItem) (h : ThinkRel sT sF) :
    ThinkRel (processAssistantItem true ts sT item)
      (processAssistantItem false ts sF item) := by
  obtain ⟨h1, h2, h3, h4, h5, h6, h7, h8, h9, h10, h11, h12, h13⟩ := h
  unfold processAssistantItem
  by_cases hth : item.type = some "thinking"
  · rw [if_pos hth, if_pos hth, if_pos (show true = true from rfl),
      if_neg Bool.false_ne_true]
    refine ⟨?_, ?_, ?_, h4, h5, h6, h7, h8, h9, h10, h11, h12, h13⟩
    · show sF.events = renumberFrom 0 (stripThinking (sT.events ++ _))
      rw [stripThinking_append, if_pos (by simp), List.append_nil, h1]
    · show sF.counter = (stripThinking (sT.events ++ _)).length
      rw [stripThinking_append, if_pos (by simp), List.append_nil, h2]
    · show sT.counter + 1 = (sT.events ++ _).length
      rw [List.length_append, h3]
      rfl
  · rw [if_neg hth, if_neg hth]
    by_cases htx : item.type = some "text"
    · rw [if_pos htx, if_pos htx]
      refine ⟨?_, ?_, ?_, h4, h5, h6, h7, h8, h9, h10, h11,
        by rw [h12], by rw [h13]⟩
      · show sF.events ++ _ = renumberFrom 0 (stripThinking (sT.events ++ _))
        rw [stripThinking_append, if_neg (by simp), renumberFrom_append, h1, h2]
        simp [Nat.zero_add]
      · show sF.counter + 1 = (stripThinking (sT.events ++ _)).length
        rw [stripThinking_append, if_neg (by simp), List.length_append, h2]
        rfl
      · show sT.counter + 1 = (sT.events ++ _).length
        rw [List.length_append, h3]
        rfl
    · rw [if_neg htx, if_neg htx]
      by_cases htu : item.type = some "tool_use"
      · rw [if_pos htu, if_pos htu]
        refine ⟨?_, ?_, ?_, h4, h5, h6, h7, h8,
          by rw [h9], by rw [h10], by rw [h11], h12, h13⟩
        · show sF.events ++ _ = renumberFrom 0 (stripThinking (sT.events ++ _))
          rw [stripThinking_append, if_neg (by simp), renumberFrom_append, h1, h2]
          simp [Nat.zero_add]
        · show sF.counter + 1 = (stripThinking (sT.events ++ _)).length
          rw [stripThinking_append, if_neg (by simp), List.length_append, h2]
          rfl
        · show sT.counter + 1 = (sT.events ++ _).length
          rw [List.length_append, h3]
          rfl
      · rw [if_neg htu, if_neg htu]
        exact ⟨h1, h2, h3, h4, h5, h6, h7, h8, h9, h10, h11, h12, h13⟩

theorem rel_foldl {α : Type} (stepT stepF : ParseResult → α → ParseResult)
    (hstep : ∀ sT sF it, ThinkRel sT sF → ThinkRel (stepT sT it) (stepF sF it))
    (l : List α) (sT sF : ParseResult) (h : ThinkRel sT sF) :
    ThinkRel (l.foldl stepT sT) (l.foldl stepF sF) := by
  induction l generalizing sT sF with
  | nil => exact h
  | cons x xs ih => exact ih _ _ (hstep sT sF x h)

theorem rel_processEntry (sT sF : ParseResult) (e : Entry) (h : ThinkRel sT sF) :
    ThinkRel (processEntry true sT e) (processEntry false sF e) := by
  have hm := rel_updateEntryMeta sT sF e h
  obtain ⟨h1, h2, h3, h4, h5, h6, h7, h8, h9, h10, h11, h12, h13⟩ := hm
  unfold processEntry
  dsimp only
  by_cases hq : e.type = some "queue-operation"
  · rw [if_pos hq, if_pos hq]
    exact ⟨h1, h2, h3, h4, h5, h6, h7, h8, h9, h10, h11, h12, h13⟩
  · rw [if_neg hq, if_neg hq]
    cases hc : (e.message.getD {}).content with
    | none => exact ⟨h1, h2, h3, h4, h5, h6, h7, h8, h9, h10, h11, h12, h13⟩
    | some c =>
      dsimp only
      by_cases h2c : ¬ c.isTruthy = true
      · rw [if_pos h2c, if_pos h2c]
        exact ⟨h1, h2, h3, h4, h5, h6, h7, h8, h9, h10, h11, h12, h13⟩
      · rw [if_neg h2c, if_neg h2c]
        by_cases hu : (e.message.getD {}).role.getD "" = "user"
        · rw [if_pos hu, if_pos hu]
          cases c with
          | str s =>
            refine ⟨?_, ?_, ?_, h4, h5, h6, h7, h8, h9, h10, h11,
              by rw [h12], h13⟩
            · show (updateEntryMeta sF e).events ++ _ =
                renumberFrom 0 (stripThinking ((updateEntryMeta sT e).events ++ _))
              rw [stripThinking_append, if_neg (by simp), renumberFrom_append,
                h1, h2]
              simp [Nat.zero_add]
            · show (updateEntryMeta sF e).counter + 1 =
                (stripThinking ((updateEntryMeta sT e).events ++ _)).length
              rw [stripThinking_append, if_neg (by simp), List.length_append, h2]
              rfl
            · show (updateEntryMeta sT e).counter + 1 =
                ((updateEntryMeta sT e).events ++ _).length
              rw [List.length_append, h3]
              rfl
          | items l =>
            exact rel_foldl _ _
              (fun a b it hr => rel_processUserItem e.timestamp a b it hr) l _ _
              ⟨h1, h2, h3, h4, h5, h6, h7, h8, h9, h10, h11, h12, h13⟩
          | other =>
            exact ⟨h1, h2, h3, h4, h5, h6, h7, h8, h9, h10, h11, h12, h13⟩
        · rw [if_neg hu, if_neg hu]
          by_cases ha : (e.message.getD {}).role.getD "" = "assistant"
          · rw [if_pos ha, if_pos ha]
            cases c with
            | str s =>
              exact ⟨h1, h2, h3, h4, h5, h6, h7, h8, h9, h10, h11, h12, h13⟩
            | items l =>
              exact rel_foldl _ _
                (fun a b it hr => rel_processAssistantItem e.timestamp a b it hr)
                l _ _ ⟨h1, h2, h3, h4, h5, h6, h7, h8, h9, h10, h11, h12, h13⟩
            | other =>
              exact ⟨h1, h2, h3, h4, h5, h6, h7, h8, h9, h10, h11, h12, h13⟩
          · rw [if_neg ha, if_neg ha]
            exact ⟨h1, h2, h3, h4, h5, h6, h7, h8, h9, h10, h11, h12, h13⟩

theorem parseResultExt (a b : ParseResult)
    (h1 : a.session_id = b.session_id) (h2 : a.cwd = b.cwd)
    (h3 : a.git_branch = b.git_branch) (h4 : a.start_time = b.start_time)
    (h5 : a.end_time = b.end_time) (h6 : a.files_modified = b.files_modified)
    (h7 : a.files_read = b.files_read) (h8 : a.tools_used = b.tools_used)
    (h9 : a.phases = b.phases) (h10 : a.decisions = b.decisions)
    (h11 : a.events = b.events) (h12 : a.counter = b.counter) : a = b := by
  cases a
  cases b
  dsimp only at h1 h2 h3 h4 h5 h6 h7 h8 h9 h10 h11 h12
  subst h1 h2 h3 h4 h5 h6 h7 h8 h9 h10 h11 h12
  rfl

theorem rel_process_entries (entries : List Entry) :
    ThinkRel (entries.foldl (processEntry true) {})
      (entries.foldl (processEntry false) {}) :=
  rel_foldl _ _ (fun a b it hr => rel_processEntry a b it hr) entries {} {}
    ⟨rfl, rfl, rfl, rfl, rfl, rfl, rfl, rfl, rfl, rfl, rfl, rfl, rfl⟩

theorem process_entries_renumber (entries : List Entry) :
    process_entries entries false =
      { process_entries entries true with
        events := renumberFrom 0
          (stripThinking (process_entries entries true).events),
        counter :=
          (stripThinking (process_entries entries true).events).length } := by
  obtain ⟨h1, h2, h3, h4, h5, h6, h7, h8, h9, h10, h11, h12, h13⟩ :=
    rel_process_entries entries
  refine parseResultExt _ _ ?_ ?_ ?_ ?_ ?_ ?_ ?_ ?_ ?_ ?_ ?_ ?_ <;>
    show _ = _
  · exact h4
  · exact h5
  · exact h6
  · exact h7
  · exact h8
  · exact h9
  · exact h10
  · exact h11
  · show (dedupFirst (entries.foldl (processEntry false) {}).phases).take 15 = _
    rw [h12]
    rfl
  · show (dedupFirst (entries.foldl (processEntry false) {}).decisions).take 15 = _
    rw [h13]
    rfl
  · exact h1
  · exact h2

theorem get_fresh_thinking_filter (st : DbState) (fs : FileSystem)
    (sid : String) (row : SessionRow) (file : FsFile) (dT dF : SessionDetail)
    (hrow : st.sessions.find? (fun s => s.session_id = sid) = some row)
    (hfs : fs row.file_path = some file)
    (hmt : ¬ row.file_mtime < file.mtime)
    (hT : SessionDatabase.get_session_by_id st fs sid true = some dT)
    (hF : SessionDatabase.get_session_by_id st fs sid false = some dF) :
    dF.events = dT.events.filter (fun e => !decide (e.type = "thinking")) := by
  unfold SessionDatabase.get_session_by_id at hT hF
  rw [hrow] at hT hF
  dsimp only at hT hF
  rw [hfs] at hT hF
  dsimp only at hT hF
  rw [if_neg hmt] at hT hF
  injection hT with hT
  injection hF with hF
  subst hT hF
  show (((st.events.filter (fun e => e.session_id = sid)).filter
      (fun e => !decide (e.type = "thinking"))).map dbRowToEvent) = _
  rw [List.filter_map]
  rfl

/-- C5 amended: excluding thinking preserves order, kinds and contents.  On
the direct-parse path the identifiers are compacted: the
`include_thinking=False` parse equals the `include_thinking=True` parse
with thinking events stripped and identifiers renumbered sequentially.  On
the store-served (fresh) path the stored identifiers are returned
unchanged: the `include_thinking=False` result is exactly the
`include_thinking=True` result with thinking rows filtered out.  Scenario
3 yields exactly 2 events with unchanged kinds and order. -/
theorem C5_exclude_thinking_amended :
    (∀ entries : List Entry,
      process_entries entries false =
        { process_entries entries true with
          events := renumberFrom 0
            (stripThinking (process_entries entries true).events),
          counter :=
            (stripThinking (process_entries entries true).events).length }) ∧
    (∀ (st : DbState) (fs : FileSystem) (sid : String) (row : SessionRow)
        (file : FsFile) (dT dF : SessionDetail),
      st.sessions.find? (fun s => s.session_id = sid) = some row →
      fs row.file_path = some file →
      ¬ row.file_mtime < file.mtime →
      SessionDatabase.get_session_by_id st fs sid true = some dT →
      SessionDatabase.get_session_by_id st fs sid false = some dF →
      dF.events = dT.events.filter (fun e => !decide (e.type = "thinking"))) ∧
    ((process_entries c5entries false).events.map (fun e => (e.type, e.content))
      = (stripThinking (process_entries c5entries true).events).map
          (fun e => (e.type, e.content)) ∧
     (process_entries c5entries false).events.length = 2) :=
  ⟨process_entries_renumber, get_fresh_thinking_filter,
   by decide, by decide⟩

/-- C5 witness: the store-path conjunct applied to a concrete fresh entry
holding one thinking row and one assistant row. -/
theorem C5_exclude_thinking_amended_witness :
    c5dF.events = c5dT.events.filter (fun e => !decide (e.type = "thinking")) :=
  C5_exclude_thinking_amended.2.1 c5stateF c5fsF "s5f" c5rowF c5fileF c5dT c5dF
    (by decide) rfl (by decide) (by decide) (by decide)
theorem insertDescByStart_mem (x y : SessionRow) (l : List SessionRow) :
    x ∈ insertDescByStart y l ↔ x = y ∨ x ∈ l := by
  induction l with
  | nil => simp [insertDescByStart]
  | cons z zs ih =>
    unfold insertDescByStart
    split_ifs with h
    · simp [List.mem_cons]
    · simp only [List.mem_cons, ih]
      tauto

theorem insertDescByStart_length (y : SessionRow) (l : List SessionRow) :
    (insertDescByStart y l).length = l.length + 1 := by
  induction l with
  | nil => rfl
  | cons z zs ih =>
    unfold insertDescByStart
    split_ifs with h
    · rfl
    · simp only [List.length_cons, ih]

theorem sortSessionsDesc_aux_mem (l : List SessionRow)
    (acc : List SessionRow) (x : SessionRow) :
    x ∈ l.foldl (fun a r => insertDescByStart r a) acc ↔ x ∈ acc ∨ x ∈ l := by
  induction l generalizing acc with
  | nil => simp
  | cons y ys ih =>
    rw [List.foldl_cons, ih, insertDescByStart_mem]
    simp only [List.mem_cons]
    tauto

theorem sortSessionsDesc_mem (l : List SessionRow) (x : SessionRow) :
    x ∈ sortSessionsDesc l ↔ x ∈ l := by
  unfold sortSessionsDesc
  rw [sortSessionsDesc_aux_mem]
  simp

theorem sortSessionsDesc_aux_length (l : List SessionRow)
    (acc : List SessionRow) :
    (l.foldl (fun a r => insertDescByStart r a) acc).length
      = acc.length + l.length := by
  induction l generalizing acc with
  | nil => rfl
  | cons y ys ih =>
    rw [List.foldl_cons, ih, insertDescByStart_length]
    simp only [List.length_cons]
    omega

theorem sortSessionsDesc_length (l : List SessionRow) :
    (sortSessionsDesc l).length = l.length := by
  unfold sortSessionsDesc
  rw [sortSessionsDesc_aux_length]
  simp

theorem ftsRowMatch_mirror (t : String) (e : DbEventRow) :
    ftsRowMatch t (mirrorRow e) = true ↔
      ∃ c, e.content = some c ∧ (strLower t).data ∈ ftsTokens c := by
  unfold ftsRowMatch
  rw [show (mirrorRow e).content = e.content from rfl]
  cases hec : e.content with
  | none => simp
  | some c =>
    dsimp only
    constructor
    · intro hm
      obtain ⟨a, ha, hba⟩ := List.contains_iff_exists_mem_beq.mp hm
      rw [beq_iff_eq] at hba
      exact ⟨c, rfl, hba ▸ ha⟩
    · rintro ⟨c', hc', hmem⟩
      injection hc' with hc'
      subst hc'
      exact List.contains_iff_exists_mem_beq.mpr ⟨_, hmem, beq_iff_eq.mpr rfl⟩

theorem rowMatchesSearch_iff (st : DbState) (t : String) (s : SessionRow)
    (hinv : FtsInv st) :
    rowMatchesSearch st t s = true ↔ specSearchMatch st t s := by
  obtain ⟨hmir, huniq, _, _⟩ := hinv
  unfold rowMatchesSearch specSearchMatch
  simp only [Bool.or_eq_true, List.any_eq_true, Bool.and_eq_true,
    decide_eq_true_eq]
  constructor
  · rintro (((⟨f, hf, hfm, e, he, hrid, hesid⟩ | hproj) | hbr) | hcwd)
    · have hfe : f = mirrorRow e := huniq e he f hf hrid.symm
      rw [hfe] at hfm
      obtain ⟨c, hec, hmem⟩ := (ftsRowMatch_mirror t e).mp hfm
      exact Or.inl ⟨e, he, hesid, c, hec, hmem⟩
    · exact Or.inr (Or.inl hproj)
    · refine Or.inr (Or.inr (Or.inl ?_))
      cases hb : s.git_branch with
      | none => rw [hb] at hbr; cases hbr
      | some b => rw [hb] at hbr; exact ⟨b, rfl, hbr⟩
    · refine Or.inr (Or.inr (Or.inr ?_))
      cases hw : s.cwd with
      | none => rw [hw] at hcwd; cases hcwd
      | some w => rw [hw] at hcwd; exact ⟨w, rfl, hcwd⟩
  · rintro (⟨e, he, hesid, c, hec, hmem⟩ | hproj | ⟨b, hb, hbr⟩ | ⟨w, hw, hcwd⟩)
    · exact Or.inl (Or.inl (Or.inl ⟨mirrorRow e, hmir e he,
        (ftsRowMatch_mirror t e).mpr ⟨c, hec, hmem⟩, e, he, rfl, hesid⟩))
    · exact Or.inl (Or.inl (Or.inr hproj))
    · refine Or.inl (Or.inr ?_)
      rw [hb]
      exact hbr
    · refine Or.inr ?_
      rw [hw]
      exact hcwd

/-- C2 amended: for a plain single-token search term over a store
satisfying the real index invariant `FtsInv` (which, unlike lockstep,
holds in every reachable state — see `ftsInv_empty` and
`ftsInv_index_session`), `query` either fails with the FTS corruption
error — exactly when the term's match set reaches a ghost index entry
left by the defective delete trigger — or returns a session iff the term
occurs as a complete token of some stored event's content for that
session, or is a case-insensitive substring of project name, working
directory, or branch label. -/
theorem C2_search_semantics_amended (st : DbState) (t : String)
    (s : SessionRow) (hinv : FtsInv st) (htok : plainToken t)
    (hsid : nodupSids st) (hs : s ∈ st.sessions) :
    (ftsGhostMatch st t = true →
      SessionDatabase.get_sessions st none none none (some t) 0
          st.sessions.length
        = Except.error "database disk image is malformed") ∧
    (ftsGhostMatch st t = false →
      ∃ page total,
        SessionDatabase.get_sessions st none none none (some t) 0
            st.sessions.length = Except.ok (page, total) ∧
        (sessionRowToSummary s ∈ page ↔ specSearchMatch st t s)) := by
  have ht : truthyOptStr (some t) = true := by
    unfold truthyOptStr
    simp only [decide_eq_true_eq]
    intro h0
    exact htok.1 (by rw [h0])
  have hpre : ∀ x : SessionRow,
      rowMatchesPrefilters none none none x = true := by
    intro x
    unfold rowMatchesPrefilters
    rfl
  constructor
  · intro hg
    have hcond : (truthyOptStr (some t) && ftsGhostMatch st t
        && st.sessions.any (rowMatchesPrefilters none none none)) = true := by
      rw [ht, hg, List.any_eq_true.mpr ⟨s, hs, hpre s⟩]
      rfl
    unfold SessionDatabase.get_sessions
    simp only [Option.getD_some]
    rw [if_pos hcond]
  · intro hg
    have hcond : (truthyOptStr (some t) && ftsGhostMatch st t
        && st.sessions.any (rowMatchesPrefilters none none none)) = false := by
      rw [hg, Bool.and_false, Bool.false_and]
    unfold SessionDatabase.get_sessions
    simp only [Option.getD_some]
    rw [if_neg (by rw [hcond]; exact Bool.false_ne_true)]
    refine ⟨_, _, rfl, ?_⟩
    have hfilters : ∀ x : SessionRow,
        rowMatchesFilters st none none none (some t) x
          = rowMatchesSearch st t x := by
      intro x
      unfold rowMatchesFilters rowMatchesPrefilters
      rw [ht]
      exact rfl
    rw [List.drop_zero]
    have hlen : (sortSessionsDesc (st.sessions.filter
        (rowMatchesFilters st none none none (some t)))).length
        ≤ st.sessions.length := by
      rw [sortSessionsDesc_length]
      exact List.length_filter_le _ _
    rw [List.take_of_length_le hlen]
    constructor
    · intro hmem
      obtain ⟨s', hs', hsum⟩ := List.mem_map.1 hmem
      rw [sortSessionsDesc_mem] at hs'
      obtain ⟨hs'mem, hs'match⟩ := List.mem_filter.1 hs'
      have heq : s'.session_id = s.session_id :=
        congrArg SessionSummary.session_id hsum
      have hsid' : (st.sessions.map (fun x => x.session_id)).Nodup := hsid
      have : s' = s := List.inj_on_of_nodup_map hsid' hs'mem hs heq
      subst this
      rw [hfilters] at hs'match
      exact (rowMatchesSearch_iff st t s' hinv).mp hs'match
    · intro hspec
      have hsearch := (rowMatchesSearch_iff st t s hinv).mpr hspec
      refine List.mem_map.2 ⟨s, (sortSessionsDesc_mem _ _).2
        (List.mem_filter.2 ⟨hs, ?_⟩), rfl⟩
      rw [hfilters]
      exact hsearch

/-- C2 witness: the amended theorem applied to the concrete one-session
store, whose index holds no ghost entry for `parser`. -/
theorem C2_search_semantics_amended_witness :
    ftsGhostMatch c2state "parser" = false ∧
    ∃ page total,
      SessionDatabase.get_sessions c2state none none none (some "parser") 0
          c2state.sessions.length = Except.ok (page, total) ∧
      (sessionRowToSummary c2row ∈ page ↔
        specSearchMatch c2state "parser" c2row) :=
  ⟨by decide,
   (C2_search_semantics_amended c2state "parser" c2row
      (by unfold FtsInv; decide)
      (by unfold plainToken; decide)
      (by unfold nodupSids; decide)
      (by decide)).2 (by decide)⟩
